import Mathlib

/-!
# Verification of the expense-tracker conversational core

Shallow embedding of the repository's services:
`exchange_rate_service.py`, `llm_service.py`, `message_handler.py`,
`database_service.py`, `monthly_tracking_service.py`.

Python floats are modelled as rationals (`ℚ`); Python dictionaries keyed
by sender id are modelled as association lists with unique keys;
`datetime.now()` is passed in explicitly as a calendar date `today`
together with a flag `fracPos` saying whether the wall-clock time of day
is strictly past midnight (this determines `timedelta.days` flooring).
Exceptions raised by external collaborators (SMS / WhatsApp transports,
database fetches) are modelled by explicit `PyRes` values.
-/

namespace ExpenseTracker

/-! ## Python `round(x, 2)` — round-half-to-even (banker's rounding) -/

/-- Round-half-to-even on rationals, embedding Python's `round` on a
number with no extra binary-float error. -/
def halfEvenRound (q : ℚ) : ℤ :=
  let f : ℤ := ⌊q⌋
  let r : ℚ := q - f
  if r < 1/2 then f
  else if r > 1/2 then f + 1
  else if Even f then f else f + 1

/-- Python `round(x, 2)`. -/
def pyRound2 (q : ℚ) : ℚ := (halfEvenRound (q * 100) : ℚ) / 100

/-! ## Calendar dates (`datetime.date`) -/

/-- A calendar date, embedding Python `datetime.date`. -/
structure PDate where
  year : Nat
  month : Nat
  day : Nat
deriving DecidableEq

/-- Gregorian leap-year test. -/
def isLeap (y : Nat) : Bool := y % 4 = 0 && (y % 100 ≠ 0 || y % 400 = 0)

/-- Days in a month of a given year. -/
def daysInMonth (y m : Nat) : Nat :=
  if m = 2 then (if isLeap y then 29 else 28)
  else if m = 4 ∨ m = 6 ∨ m = 9 ∨ m = 11 then 30
  else 31

/-- Validity as enforced by the `datetime` constructor. -/
def validPDate (d : PDate) : Bool :=
  1 ≤ d.year && d.year ≤ 9999 && 1 ≤ d.month && d.month ≤ 12 &&
  1 ≤ d.day && d.day ≤ daysInMonth d.year d.month

/-- Cumulative days before month `m` in year `y` (m in 1..12). -/
def daysBeforeMonth (y m : Nat) : Nat :=
  (List.range (m - 1)).foldl (fun acc i => acc + daysInMonth y (i + 1)) 0

/-- Proleptic-Gregorian ordinal of a date (as in `datetime.toordinal`). -/
def toOrdinal (d : PDate) : Nat :=
  365 * (d.year - 1) + (d.year - 1) / 4 - (d.year - 1) / 100 + (d.year - 1) / 400
    + daysBeforeMonth d.year d.month + d.day

/-- `(parsed_midnight - now).days` where `now` is on day `today` and
`fracPos` says the time of day is strictly past midnight.  Python's
`timedelta.days` floors, so a positive time-of-day shifts the result
down by one. -/
def timedeltaDays (parsed today : PDate) (fracPos : Bool) : ℤ :=
  (toOrdinal parsed : ℤ) - (toOrdinal today : ℤ) - (if fracPos then 1 else 0)

/-! ## String helpers -/

/-- Left-pad a numeral with zeros to width `w` (as `strftime` does). -/
def padNum (w : Nat) (n : Nat) : String :=
  let s := toString n
  String.mk (List.replicate (w - s.length) '0') ++ s

/-- `date.strftime('%Y-%m-%d')`.  On the deployment platform (glibc)
`%Y` is not zero-padded, and `f"{year}"` in the batch job is not
either, so the year is rendered unpadded. -/
def fmtYMD (d : PDate) : String :=
  toString d.year ++ "-" ++ padNum 2 d.month ++ "-" ++ padNum 2 d.day

/-- `date.strftime('%Y-%m')`, also the shape of
`f"{prev_year}-{prev_month:02d}"` in the batch job. -/
def fmtYM (d : PDate) : String :=
  toString d.year ++ "-" ++ padNum 2 d.month

/-- All characters are ASCII digits. -/
def allDigits (cs : List Char) : Bool := cs.all Char.isDigit

/-- Numeric value of a digit string. -/
def digitsToNat (cs : List Char) : Nat :=
  cs.foldl (fun acc c => acc * 10 + (c.toNat - '0'.toNat)) 0

/-- Split a character list on `-` (Python `s.split('-')`). -/
def splitDash : List Char → List (List Char)
  | [] => [[]]
  | c :: cs =>
    let r := splitDash cs
    if c = '-' then [] :: r
    else (c :: r.headD []) :: r.tail

/-- `datetime.strptime(s, '%Y-%m-%d')` as used by the validator and the
commit step: exactly three dash-separated fields, a 4-digit year, a one-
or two-digit month in 1..12, a one- or two-digit day in 1..31, and the
resulting triple must be a constructible calendar date. -/
def parseYMD (s : String) : Option PDate :=
  match splitDash s.toList with
  | [yc, mc, dc] =>
    if yc.length = 4 && allDigits yc &&
       (mc.length = 1 || mc.length = 2) && allDigits mc &&
       (dc.length = 1 || dc.length = 2) && allDigits dc then
      let d : PDate := ⟨digitsToNat yc, digitsToNat mc, digitsToNat dc⟩
      if 1 ≤ d.month && d.month ≤ 12 && 1 ≤ d.day && d.day ≤ 31 && validPDate d
      then some d else none
    else none
  | _ => none

/-- Python `str.lower()` (ASCII). -/
def pyLower (s : String) : String := String.mk (s.toList.map Char.toLower)

/-- Python `str.upper()` (ASCII). -/
def pyUpper (s : String) : String := String.mk (s.toList.map Char.toUpper)

/-- ASCII whitespace as stripped by Python `str.strip()`. -/
def pySpaceChar (c : Char) : Bool :=
  c = ' ' ∨ c = '\t' ∨ c = '\n' ∨ c = '\r' ∨ c = '\x0b' ∨ c = '\x0c'

/-- Python `str.strip()`. -/
def pyStrip (s : String) : String :=
  String.mk (((s.toList.dropWhile pySpaceChar).reverse.dropWhile
    pySpaceChar).reverse)

/-- Drop a literal pattern from the front of a list, if it is there. -/
def stripPre? : List Char → List Char → Option (List Char)
  | [], s => some s
  | _ :: _, [] => none
  | p :: ps, c :: cs => if c = p then stripPre? ps cs else none

/-- Fuel-bounded scan of Python `str.replace(old, new)` (left-to-right,
non-overlapping); the fuel is the string length, enough for any
non-empty pattern. -/
def replaceFuel : Nat → List Char → List Char → List Char → List Char
  | 0, s, _, _ => s
  | fuel + 1, s, pat, rep =>
    match s with
    | [] => []
    | c :: cs =>
      match stripPre? pat s with
      | some rest => rep ++ replaceFuel fuel rest pat rep
      | none => c :: replaceFuel fuel cs pat rep

/-- Python `str.replace(old, new)` for a non-empty `old`. -/
def pyReplace (s pat rep : String) : String :=
  String.mk (replaceFuel s.toList.length s.toList pat.toList rep.toList)

/-- Python `str.startswith(pat)`. -/
def pyStarts (s pat : String) : Bool := (stripPre? pat.toList s.toList).isSome

/-- Python `str.title()` (ASCII): a letter is uppercased when the
preceding character is not a letter, lowercased otherwise. -/
def pyTitleGo : List Char → Bool → List Char
  | [], _ => []
  | c :: cs, prevAlpha =>
    (if c.isAlpha then (if prevAlpha then c.toLower else c.toUpper) else c)
      :: pyTitleGo cs c.isAlpha

/-- Python `str.title()` (ASCII letters). -/
def pyTitle (s : String) : String := String.mk (pyTitleGo s.toList false)

/-! ## Python `float(...)` on plain decimal literals

Embeds `float(s)` for ordinary numerals: optional sign, digits with an
optional decimal point, optional exponent.  The special spellings
`inf`/`nan` would fail the source's `0.01 <= x <= 10000` range check in
every caller, so they are immaterial to the handlers modelled here. -/

/-- Split a leading run of digits from a character list. -/
def spanDigits (cs : List Char) : List Char × List Char :=
  match cs with
  | [] => ([], [])
  | c :: rest =>
    if c.isDigit then
      let (ds, r) := spanDigits rest
      (c :: ds, r)
    else ([], cs)

/-- Parse the exponent part (after `e`/`E`): optional sign then digits,
consuming the whole remainder. -/
def parseExp (cs : List Char) : Option ℤ :=
  let (sign, rest) :=
    match cs with
    | '+' :: r => ((1 : ℤ), r)
    | '-' :: r => ((-1 : ℤ), r)
    | r => ((1 : ℤ), r)
  let (ds, r) := spanDigits rest
  if ds.isEmpty || !r.isEmpty then none
  else some (sign * (digitsToNat ds : ℤ))

/-- Parse mantissa and optional exponent. -/
def parseMantissa (cs : List Char) : Option ℚ :=
  let (ip, r1) := spanDigits cs
  let (fp, r2) :=
    match r1 with
    | '.' :: r => spanDigits r
    | _ => ([], r1)
  if ip.isEmpty && fp.isEmpty then none
  else
    let base : ℚ := (digitsToNat ip : ℚ) + (digitsToNat fp : ℚ) / (10 ^ fp.length : ℚ)
    match r2 with
    | [] => some base
    | 'e' :: r => (parseExp r).map (fun e => base * (10 : ℚ) ^ e)
    | 'E' :: r => (parseExp r).map (fun e => base * (10 : ℚ) ^ e)
    | _ => none

/-- `float(s)` on a stripped string; `none` models `ValueError`. -/
def pyFloat? (s : String) : Option ℚ :=
  let t := (pyStrip s).toList
  match t with
  | '+' :: r => parseMantissa r
  | '-' :: r => (parseMantissa r).map Neg.neg
  | r => parseMantissa r

/-! ## `llm_service.fix_turkish_date`

The source runs `re.search` for the three patterns
`(\d{1,2})SEP(\d{1,2})SEP(\d{2,4})` with separators `/`, `.`, `-` in
that order.  `re.search` finds the leftmost match, with greedy
backtracking on each bounded repetition; we enumerate the candidate
lengths in the regex engine's priority order at each start position. -/

/-- Take exactly `n` leading digits, returning their value and the rest. -/
def takeDigits : Nat → List Char → Option (Nat × List Char)
  | 0, cs => some (0, cs)
  | _ + 1, [] => none
  | n + 1, c :: cs =>
    if c.isDigit then
      (takeDigits n cs).map (fun (v, r) =>
        (v + (c.toNat - '0'.toNat) * 10 ^ n, r))
    else none

/-- Expect a literal character. -/
def expectChar (sep : Char) : List Char → Option (List Char)
  | [] => none
  | c :: cs => if c = sep then some cs else none

/-- Try one assignment of repetition lengths `(l1, l2, l3)` at the
current position. -/
def tryLens (sep : Char) (cs : List Char) (l1 l2 l3 : Nat) :
    Option (Nat × Nat × Nat) := do
  let (d1, r1) ← takeDigits l1 cs
  let r2 ← expectChar sep r1
  let (d2, r3) ← takeDigits l2 r2
  let r4 ← expectChar sep r3
  let (d3, _) ← takeDigits l3 r4
  pure (d1, d2, d3)

/-- Match the triple pattern anchored at the current position, trying
lengths in greedy-backtracking order. -/
def matchTripleAt (sep : Char) (cs : List Char) : Option (Nat × Nat × Nat) :=
  tryLens sep cs 2 2 4 <|> tryLens sep cs 2 2 3 <|> tryLens sep cs 2 2 2 <|>
  tryLens sep cs 2 1 4 <|> tryLens sep cs 2 1 3 <|> tryLens sep cs 2 1 2 <|>
  tryLens sep cs 1 2 4 <|> tryLens sep cs 1 2 3 <|> tryLens sep cs 1 2 2 <|>
  tryLens sep cs 1 1 4 <|> tryLens sep cs 1 1 3 <|> tryLens sep cs 1 1 2

/-- `re.search`: leftmost position whose anchored match succeeds. -/
def searchTriple (sep : Char) : List Char → Option (Nat × Nat × Nat)
  | [] => none
  | c :: cs => matchTripleAt sep (c :: cs) <|> searchTriple sep cs

/-- `match1 or match2 or match3` in the source: the `/` pattern, then
`.`, then `-`. -/
def firstMatch3 (s : String) : Option (Nat × Nat × Nat) :=
  searchTriple '/' s.toList <|> searchTriple '.' s.toList <|>
  searchTriple '-' s.toList

/-- The post-match computation of `fix_turkish_date`: two-digit year
windowing, day/month range check, and `datetime` construction (whose
`ValueError` the source's `except` turns into `None`). -/
def fixTriple (t : Nat × Nat × Nat) : Option String :=
  let day := t.1
  let month := t.2.1
  let y0 := t.2.2
  let year := if y0 < 100 then (if y0 ≤ 30 then y0 + 2000 else y0 + 1900) else y0
  if 1 ≤ day && day ≤ 31 && 1 ≤ month && month ≤ 12 then
    if validPDate ⟨year, month, day⟩ then some (fmtYMD ⟨year, month, day⟩)
    else none
  else none

/-- `llm_service.fix_turkish_date`. -/
def fix_turkish_date (s : String) : Option String :=
  if s = "" then none else (firstMatch3 s).bind fixTriple

/-! ## `llm_service.validate_extracted_data` -/

/-- One extracted line item. -/
structure RItem where
  name : String
  price : ℚ
  quantity : Nat
deriving DecidableEq

/-- A Python value sitting in the `total_amount` slot: either already a
number or a string to be coerced with `float(...)`. -/
inductive AmtV
  | num (q : ℚ)
  | str (t : String)
deriving DecidableEq

/-- The structured record returned by the LLM stage, as consumed by the
validator.  `none` in an `Option` field models an absent key or a JSON
`null`; `items_ok` records whether the `items` value is a list. -/
structure RawData where
  merchant_name : Option String
  total_amount : Option AmtV
  date : Option String
  items_ok : Bool
  items : List RItem
  confidence : Option String
  extraction_notes : Option String
deriving DecidableEq

/-- Python truthiness of an optional string. -/
def truthyOptStr : Option String → Bool
  | none => false
  | some s => s ≠ ""

/-- Python truthiness of the `total_amount` slot. -/
def truthyAmt : Option AmtV → Bool
  | none => false
  | some (.num q) => q ≠ 0
  | some (.str t) => t ≠ ""

/-- `float(...)` coercion of the `total_amount` slot. -/
def coerceAmt : Option AmtV → Option ℚ
  | some (.num q) => some q
  | some (.str t) => pyFloat? t
  | none => none

/-- Amount-validation stage of `validate_extracted_data`. -/
def vAmount (d0 : RawData) : RawData :=
  if truthyAmt d0.total_amount then
    match coerceAmt d0.total_amount with
    | some q =>
      let d := { d0 with total_amount := some (.num q) }
      if q ≤ 0 then { d with confidence := some "low" } else d
    | none => { d0 with total_amount := none, confidence := some "low" }
  else d0

/-- Enhanced date-validation stage of `validate_extracted_data`. -/
def vDate (today : PDate) (fracPos : Bool) (d1 : RawData) : RawData :=
  if truthyOptStr d1.date then
    let s := d1.date.getD ""
    match parseYMD s with
    | some p =>
      if (timedeltaDays p today fracPos).natAbs > 365 then
        { d1 with date := some (fmtYMD today), confidence := some "medium",
                  extraction_notes := some ((d1.extraction_notes.getD "")
                    ++ " Date adjusted (seemed incorrect).") }
      else d1
    | none =>
      match fix_turkish_date s with
      | some f =>
        { d1 with date := some f, confidence := some "medium",
                  extraction_notes := some ((d1.extraction_notes.getD "")
                    ++ " Date format corrected.") }
      | none =>
        { d1 with date := some (fmtYMD today), confidence := some "medium",
                  extraction_notes := some ((d1.extraction_notes.getD "")
                    ++ " Date unclear, used today's date.") }
  else { d1 with date := some (fmtYMD today) }

/-- Items-validation stage of `validate_extracted_data`. -/
def vItems (d2 : RawData) : RawData :=
  if d2.items_ok then d2 else { d2 with items_ok := true, items := [] }

/-- Confidence-normalization stage of `validate_extracted_data`. -/
def vConfidence (d3 : RawData) : RawData :=
  if d3.confidence = some "high" ∨ d3.confidence = some "medium" ∨
     d3.confidence = some "low" then d3
  else { d3 with confidence := some "medium" }

/-- Merchant-name stage of `validate_extracted_data`. -/
def vMerchant (d4 : RawData) : RawData :=
  if truthyOptStr d4.merchant_name = false ∨
     pyStrip (d4.merchant_name.getD "") = "" then
    { d4 with merchant_name := some "Unknown Merchant",
              confidence := some "low" }
  else d4

/-- `llm_service.validate_extracted_data`, with `datetime.now()` split
into the calendar date `today` and the past-midnight flag `fracPos`:
the source's in-place mutations become the composition of its five
stages in source order. -/
def validate_extracted_data (today : PDate) (fracPos : Bool) (d0 : RawData) :
    RawData :=
  vMerchant (vConfidence (vItems (vDate today fracPos (vAmount d0))))

/-! ## Association-list model of the per-sender Python dictionaries

Keys stay unique under these operations; `aset` overwrites in place or
appends (Python dict assignment), `aerase` is `del`. -/

/-- `d[k]` / `k in d`. -/
def alookup [DecidableEq κ] : List (κ × α) → κ → Option α
  | [], _ => none
  | (k, v) :: rest, key => if k = key then some v else alookup rest key

/-- `d[k] = v`. -/
def aset [DecidableEq κ] : List (κ × α) → κ → α → List (κ × α)
  | [], key, v => [(key, v)]
  | (k, w) :: rest, key, v =>
    if k = key then (k, v) :: rest else (k, w) :: aset rest key v

/-- `del d[k]` (guarded by membership in the source). -/
def aerase [DecidableEq κ] : List (κ × α) → κ → List (κ × α)
  | [], _ => []
  | (k, w) :: rest, key =>
    if k = key then rest else (k, w) :: aerase rest key

/-! ## `exchange_rate_service.ExchangeRateService` -/

/-- The two configured conversion rates. -/
structure Rates where
  pos_rate : ℚ
  atm_rate : ℚ
deriving DecidableEq

/-- The dictionary returned by `calculate_conversion`. -/
structure Conversion where
  tl_amount : ℚ
  mwk_amount : ℚ
  rate_used : ℚ
  rate_type : String
deriving DecidableEq

/-- `exchange_rate_service.calculate_conversion`; the `.error` case is
the `ValueError` raised for an unknown rate type. -/
def calculate_conversion (rates : Rates) (tl_amount : ℚ) (rate_type : String) :
    Except String Conversion :=
  if pyUpper rate_type = "POS" then
    .ok ⟨pyRound2 tl_amount, pyRound2 (tl_amount * rates.pos_rate),
         rates.pos_rate, pyUpper rate_type⟩
  else if pyUpper rate_type = "ATM" then
    .ok ⟨pyRound2 tl_amount, pyRound2 (tl_amount * rates.atm_rate),
         rates.atm_rate, pyUpper rate_type⟩
  else .error "Invalid rate type"

/-! ## Data model: committed expenses and dialogue state -/

/-- One persisted `expenses` row (`models.Expense` as written by
`DatabaseService.save_expense`). -/
structure ExpenseRow where
  user_id : Nat
  merchant : Option String
  amount_tl : ℚ
  amount_mwk : ℚ
  rate_type : String
  rate_used : ℚ
  expense_date : PDate
  month_year : String
  items : List RItem
  confidence : String
deriving DecidableEq

/-- The per-sender manual-entry dictionary value
(`manual_entry_states[sender]`). -/
structure ManualState where
  step : String
  awaiting_amount : Bool
  awaiting_merchant : Bool
  amount : Option ℚ
  merchant : Option String
deriving DecidableEq

/-- The mutable state of `MessageHandler` together with the expense
store appended to by `DatabaseService.save_expense`.  Both
`pending_receipts` and `pending_manual_entries` hold extraction-shaped
records (`RawData`). -/
structure MHState where
  pending_receipts : List (String × RawData)
  pending_manual_entries : List (String × RawData)
  manual_entry_states : List (String × ManualState)
  expenses : List ExpenseRow
deriving DecidableEq

/-! ## `message_handler.handle_rate_selection` -/

/-- Outcome of `handle_rate_selection`: `noPending` is the
"❌ No pending transaction found..." guidance message; `errSave` is the
`except` branch ("❌ Error saving transaction"), reached when the staged
amount is not a number, the rate type is invalid, or the staged date
string does not parse as `%Y-%m-%d`. -/
inductive RateOut
  | noPending
  | saved (e : ExpenseRow)
  | errSave
deriving DecidableEq

/-- The commit step of `handle_rate_selection` once a staged record and
its origin flag are chosen: convert, parse the staged date, build and
append the expense, then delete all three per-sender entries.  A
non-numeric staged amount, an invalid rate type, or an unparsable date
raises in the source and lands in the `except` branch (`errSave`)
without mutating anything. -/
def commitStaged (rates : Rates) (st : MHState) (uid : Nat) (sender : String)
    (rate_type : String) (data : RawData) (is_manual : Bool) :
    MHState × RateOut :=
  match data.total_amount with
  | some (.num q) =>
    match calculate_conversion rates q rate_type with
    | .error _ => (st, .errSave)
    | .ok conv =>
      match data.date with
      | none => (st, .errSave)
      | some ds =>
        match parseYMD ds with
        | none => (st, .errSave)
        | some d =>
          let e : ExpenseRow :=
            { user_id := uid
              merchant := data.merchant_name
              amount_tl := conv.tl_amount
              amount_mwk := conv.mwk_amount
              rate_type := conv.rate_type
              rate_used := conv.rate_used
              expense_date := d
              month_year := fmtYM d
              items := data.items
              confidence :=
                if is_manual then "manual" else data.confidence.getD "medium" }
          ({ pending_receipts := aerase st.pending_receipts sender
             pending_manual_entries := aerase st.pending_manual_entries sender
             manual_entry_states := aerase st.manual_entry_states sender
             expenses := st.expenses ++ [e] },
           .saved e)
  | _ => (st, .errSave)

/-- `message_handler.handle_rate_selection`.  The pending receipt is
consulted before the pending manual entry, exactly as in the source's
`if/elif`. -/
def handle_rate_selection (rates : Rates) (st : MHState) (uid : Nat)
    (sender : String) (rate_type : String) : MHState × RateOut :=
  match alookup st.pending_receipts sender with
  | some d => commitStaged rates st uid sender rate_type d false
  | none =>
    match alookup st.pending_manual_entries sender with
    | some d => commitStaged rates st uid sender rate_type d true
    | none => (st, .noPending)

/-! ## Manual entry -/

/-- `message_handler.start_manual_entry`: initialize the manual-entry
state for the sender (the two pending dictionaries are not touched). -/
def start_manual_entry (st : MHState) (sender : String) : MHState :=
  let fresh : ManualState := ⟨"amount", true, false, none, none⟩
  { st with manual_entry_states := aset st.manual_entry_states sender fresh }

/-- The shared cleaning step of `is_amount_entry` and
`handle_manual_amount`: strip `₺`, `tl`, `lira` (in that order) and
surrounding whitespace. -/
def cleanAmt (text : String) : String :=
  pyStrip (pyReplace (pyReplace (pyReplace text "₺" "") "tl" "") "lira" "")

/-- `message_handler.is_amount_entry`: strip currency markers, parse as
float, and range-check `0.01 <= amount <= 10000.00`. -/
def is_amount_entry (text : String) : Bool :=
  match pyFloat? (cleanAmt text) with
  | some a => decide (1/100 ≤ a ∧ a ≤ 10000)
  | none => false

/-- Outcome of `handle_manual_amount`: `notInManualMode` is the
"please send 'manual' command first" guidance; `invalidAmount` is the
`except` re-prompt. -/
inductive AmountOut
  | notInManualMode
  | invalidAmount
  | amountAccepted (q : ℚ)
deriving DecidableEq

/-- The state update of `handle_manual_amount`: record the amount and
advance to the merchant step. -/
def bumpAmount (ms : ManualState) (q : ℚ) : ManualState :=
  { ms with step := "merchant", awaiting_amount := false,
            awaiting_merchant := true, amount := some q }

/-- Replace the manual-entry-state dictionary of a handler state. -/
def withManualStates (st : MHState) (mes : List (String × ManualState)) :
    MHState :=
  { st with manual_entry_states := mes }

/-- `message_handler.handle_manual_amount`. -/
def handle_manual_amount (st : MHState) (sender : String) (text : String) :
    MHState × AmountOut :=
  match alookup st.manual_entry_states sender with
  | none => (st, .notInManualMode)
  | some ms =>
    match pyFloat? (cleanAmt text) with
    | none => (st, .invalidAmount)
    | some amount =>
      (withManualStates st
        (aset st.manual_entry_states sender (bumpAmount ms amount)),
       .amountAccepted amount)

/-- Outcome of `handle_manual_merchant`: `silentReturn` is the bare
`return` when no state exists; `invalidMerchant` the 2–50 character
re-prompt; `errMerchant` the `except` branch (only reachable when the
stored amount is `None`, which the dispatcher's staging discipline
prevents). -/
inductive MerchOut
  | silentReturn
  | invalidMerchant
  | errMerchant
  | merchantAccepted (name : String) (amount : ℚ)
deriving DecidableEq

/-- `message_handler.handle_manual_merchant`: title-case the text,
length-check it, stage a manual pending record dated today, and clear
the manual-entry state. -/
def handle_manual_merchant (st : MHState) (sender : String) (text : String)
    (today : PDate) : MHState × MerchOut :=
  match alookup st.manual_entry_states sender with
  | none => (st, .silentReturn)
  | some ms =>
    let merchant_name := pyTitle (pyStrip text)
    if merchant_name.length < 2 ∨ merchant_name.length > 50 then
      (st, .invalidMerchant)
    else
      match ms.amount with
      | none => (st, .errMerchant)
      | some amount =>
        let manual_data : RawData :=
          { merchant_name := some merchant_name
            total_amount := some (.num amount)
            date := some (fmtYMD today)
            items_ok := true
            items := []
            confidence := some "manual"
            extraction_notes := none }
        ({ st with
            pending_manual_entries :=
              aset st.pending_manual_entries sender manual_data
            manual_entry_states := aerase st.manual_entry_states sender },
         .merchantAccepted merchant_name amount)

/-! ## `message_handler.process_receipt_image` -/

/-- Result of the OCR collaborator. -/
structure OcrResult where
  success : Bool
  text : String
  error : String
deriving DecidableEq

/-- Result of `llm_service.process_receipt_text` (its `data` field is a
validated record and is only meaningful when `success` is true). -/
structure LlmResult where
  success : Bool
  data : RawData
  error : String
deriving DecidableEq

/-- Outcome of `process_receipt_image`: `processingFailed` is the
`except` branch, reached before staging when
`create_rate_selection_message` raises on a non-numeric staged total. -/
inductive ImgOut
  | ocrFailed (e : String)
  | llmFailed (e : String)
  | processingFailed
  | ratePromptShown
deriving DecidableEq

/-- `message_handler.process_receipt_image` with the two collaborator
results passed in.  On full success the extracted record overwrites any
prior pending receipt for the sender; no other per-sender state is
touched. -/
def process_receipt_image (st : MHState) (sender : String)
    (ocrRes : OcrResult) (llmRes : LlmResult) : MHState × ImgOut :=
  if !ocrRes.success then (st, .ocrFailed ocrRes.error)
  else if !llmRes.success then (st, .llmFailed llmRes.error)
  else
    match llmRes.data.total_amount with
    | some (.num _) =>
      ({ st with pending_receipts := aset st.pending_receipts sender llmRes.data },
       .ratePromptShown)
    | _ => (st, .processingFailed)

/-! ## Dispatcher -/

/-- Outcome of `handle_text_message`.  `helpMsg` is the final
fall-through help response (also sent for the explicit `help` command). -/
inductive TextOut
  | welcome
  | helpMsg
  | monthPicker
  | manualStarted
  | detailsMsg
  | rateSel (o : RateOut)
  | amount (o : AmountOut)
  | merchant (o : MerchOut)
deriving DecidableEq

/-- `message_handler.handle_text_message`: the source's `if/elif`
cascade over the lowered, stripped text. -/
def handle_text_message (rates : Rates) (st : MHState) (uid : Nat)
    (sender : String) (body : String) (today : PDate) : MHState × TextOut :=
  let text := pyStrip (pyLower body)
  if text = "hi" ∨ text = "hello" ∨ text = "hey" ∨ text = "start" then
    (st, .welcome)
  else if text = "help" ∨ text = "info" then (st, .helpMsg)
  else if text = "total" ∨ text = "balance" ∨ text = "summary" ∨
          text = "totals" then (st, .monthPicker)
  else if text = "manual" ∨ text = "entry" ∨ text = "add" ∨
          text = "lost receipt" ∨ text = "no receipt" then
    (start_manual_entry st sender, .manualStarted)
  else if text = "details" ∨ text = "items" ∨ text = "breakdown" ∨
          text = "list" then (st, .detailsMsg)
  else if pyUpper text = "POS" ∨ pyUpper text = "ATM" then
    let r := handle_rate_selection rates st uid sender (pyUpper text)
    (r.1, .rateSel r.2)
  else if is_amount_entry text then
    let r := handle_manual_amount st sender text
    (r.1, .amount r.2)
  else if (alookup st.manual_entry_states sender).any (·.awaiting_merchant) then
    let r := handle_manual_merchant st sender text today
    (r.1, .merchant r.2)
  else (st, .helpMsg)

/-- Outcome of `handle_interactive_message`. -/
inductive InterOut
  | rateSel (o : RateOut)
  | allTime
  | monthTotal (ym : String)
  | helpMsg
deriving DecidableEq

/-- `message_handler.handle_interactive_message` on the button id. -/
def handle_interactive_message (rates : Rates) (st : MHState) (uid : Nat)
    (sender : String) (button_id : String) : MHState × InterOut :=
  if button_id = "pos_rate" then
    let r := handle_rate_selection rates st uid sender "POS"
    (r.1, .rateSel r.2)
  else if button_id = "atm_rate" then
    let r := handle_rate_selection rates st uid sender "ATM"
    (r.1, .rateSel r.2)
  else if button_id = "all_time" then (st, .allTime)
  else if pyStarts button_id "month_" then
    (st, .monthTotal (pyReplace button_id "month_" ""))
  else (st, .helpMsg)

/-! ## `database_service.get_monthly_total` and the aggregation engine -/

/-- The SQL filter `user_id == uid AND month_year == ym`. -/
def filterExpenses (db : List ExpenseRow) (uid : Nat) (ym : String) :
    List ExpenseRow :=
  db.filter (fun e => e.user_id = uid && e.month_year = ym)

/-- The dictionary returned by `get_monthly_total`. -/
structure BasicSummary where
  mwk_total : ℚ
  tl_total : ℚ
  transaction_count : Nat
deriving DecidableEq

/-- `database_service.get_monthly_total`: rounded currency sums and the
row count (`sum(...) or 0` makes the empty sum 0). -/
def get_monthly_total (db : List ExpenseRow) (uid : Nat) (ym : String) :
    BasicSummary :=
  let es := filterExpenses db uid ym
  { mwk_total := pyRound2 (es.map (·.amount_mwk)).sum
    tl_total := pyRound2 (es.map (·.amount_tl)).sum
    transaction_count := es.length }

/-- `d[k] = d.get(k, 0) + v` over an insertion-ordered dictionary. -/
def dictAdd [DecidableEq κ] (m : List (κ × ℚ)) (k : κ) (v : ℚ) :
    List (κ × ℚ) :=
  aset m k ((alookup m k).getD 0 + v)

/-- Fold a key/amount stream into an insertion-ordered total map, as
the source's `for expense in expenses` loop does for each of its three
dictionaries. -/
def buildTotals [DecidableEq κ] : List (κ × ℚ) → List (κ × ℚ) → List (κ × ℚ)
  | [], m => m
  | (k, v) :: rest, m => buildTotals rest (dictAdd m k v)

/-- `expense.merchant or 'Unknown'`. -/
def merchKey (e : ExpenseRow) : String :=
  match e.merchant with
  | none => "Unknown"
  | some s => if s = "" then "Unknown" else s

/-- Stable descending insertion by second component, embedding Python's
stable `sorted(..., key=lambda x: x[1], reverse=True)`. -/
def insDesc [DecidableEq κ] (x : κ × ℚ) : List (κ × ℚ) → List (κ × ℚ)
  | [] => [x]
  | y :: ys => if x.2 ≥ y.2 then x :: y :: ys else y :: insDesc x ys

/-- Stable descending sort by second component. -/
def sortDescSnd [DecidableEq κ] : List (κ × ℚ) → List (κ × ℚ)
  | [] => []
  | x :: xs => insDesc x (sortDescSnd xs)

/-- The loop of Python's `max(items, key=lambda x: x[1])`: the current
best is replaced only on a strictly greater key, so the first maximal
element wins. -/
def pyMaxSndGo (acc : κ × ℚ) : List (κ × ℚ) → κ × ℚ
  | [] => acc
  | y :: ys => pyMaxSndGo (if y.2 > acc.2 then y else acc) ys

/-- `max(l, key=lambda x: x[1])`; `none` is the `ValueError` on an
empty sequence (guarded in the source by `if daily_spending`). -/
def pyMaxSnd : List (κ × ℚ) → Option (κ × ℚ)
  | [] => none
  | x :: xs => some (pyMaxSndGo x xs)

/-- `get_enhanced_monthly_summary`'s returned mapping.  The analytics
fields are `Option`s because with zero matching expenses the source
returns the basic dictionary only: `none` models an absent key. -/
structure EnhSummary where
  mwk_total : ℚ
  tl_total : ℚ
  transaction_count : Nat
  top_merchants : Option (List (String × ℚ))
  top_merchant : Option String
  rate_breakdown : Option (List (String × ℚ))
  average_transaction : Option ℚ
  highest_spending_day : Option Nat
  highest_spending_amount : Option ℚ
  month_year : Option String
deriving DecidableEq

/-- `monthly_tracking_service.get_enhanced_monthly_summary`.  The
source's single loop fills three independent dictionaries; they are
built here by three equivalent independent folds over the same expense
list. -/
def get_enhanced_monthly_summary (db : List ExpenseRow) (uid : Nat)
    (ym : String) : EnhSummary :=
  let basic := get_monthly_total db uid ym
  let es := filterExpenses db uid ym
  if es.isEmpty then
    { mwk_total := basic.mwk_total, tl_total := basic.tl_total
      transaction_count := basic.transaction_count
      top_merchants := none, top_merchant := none, rate_breakdown := none
      average_transaction := none, highest_spending_day := none
      highest_spending_amount := none, month_year := none }
  else
    let merchant_totals :=
      buildTotals (es.map (fun e => (merchKey e, e.amount_mwk))) []
    let rate_breakdown :=
      buildTotals (es.map (fun e => (e.rate_type, e.amount_mwk)))
        [("POS", 0), ("ATM", 0)]
    let daily_spending :=
      buildTotals (es.map (fun e => (e.expense_date.day, e.amount_mwk))) []
    let top_merchants := (sortDescSnd merchant_totals).take 3
    let avg : ℚ :=
      if basic.transaction_count > 0 then
        basic.mwk_total / (basic.transaction_count : ℚ)
      else 0
    let highest := (pyMaxSnd daily_spending).getD (0, 0)
    { mwk_total := basic.mwk_total, tl_total := basic.tl_total
      transaction_count := basic.transaction_count
      top_merchants := some top_merchants
      top_merchant :=
        some (match top_merchants with | [] => "N/A" | x :: _ => x.1)
      rate_breakdown := some rate_breakdown
      average_transaction := some (pyRound2 avg)
      highest_spending_day := some highest.1
      highest_spending_amount := some (pyRound2 highest.2)
      month_year := some ym }

/-! ## Dual-channel delivery (`monthly_tracking_service`) -/

/-- A Python call that either returns or raises. -/
inductive PyRes (α : Type)
  | ok (a : α)
  | exn (e : String)
deriving DecidableEq

/-- The dictionary returned by `sms_service.send_monthly_summary`. -/
structure SmsResp where
  success : Bool
  error : Option String
deriving DecidableEq

/-- A `users` row as read by the batch job. -/
structure DUser where
  id : Nat
  whatsapp_id : String
  phone_number : Option String
deriving DecidableEq

/-- The per-user result dictionary of `send_dual_delivery`. -/
structure DeliveryResult where
  sms_success : Bool
  sms_error : Option String
  whatsapp_success : Bool
  whatsapp_error : Option String
deriving DecidableEq

/-- External collaborators of the delivery coordinator.  `smsSend` and
`waSend` model the transport calls (keyed by phone number and WhatsApp
id); `waSend`'s boolean is `result is not None`.  `userExn` models any
exception escaping the per-user body of the batch loop (e.g. a database
error while computing the summary), which the source's per-user
`except` absorbs. -/
structure DeliveryEnv where
  smsAvailable : Bool
  waServicePresent : Bool
  smsSend : String → PyRes SmsResp
  waSend : String → PyRes Bool
  userExn : Nat → Option String

/-- The SMS block of `send_dual_delivery`: guarded by
`user.phone_number and sms_service.is_available()`, wrapped in its own
`try/except`, writing only the two `sms_*` slots of the result. -/
def smsAttempt (env : DeliveryEnv) (u : DUser) : Bool × Option String :=
  if truthyOptStr u.phone_number && env.smsAvailable then
    match env.smsSend (u.phone_number.getD "") with
    | .ok resp =>
      if resp.success then (true, none)
      else (false, some (resp.error.getD "Unknown SMS error"))
    | .exn e => (false, some e)
  else (false, none)

/-- The WhatsApp block of `send_dual_delivery`: guarded by
`user.whatsapp_id and self.whatsapp_service`, wrapped in its own
`try/except`, writing only the two `whatsapp_*` slots. -/
def waAttempt (env : DeliveryEnv) (u : DUser) : Bool × Option String :=
  if u.whatsapp_id ≠ "" && env.waServicePresent then
    match env.waSend u.whatsapp_id with
    | .ok b => if b then (true, none) else (false, some "WhatsApp send failed")
    | .exn e => (false, some e)
  else (false, none)

/-- `monthly_tracking_service.send_dual_delivery`: the source mutates
the four slots of one result dictionary in two independent guarded
`try/except` blocks; each block touches only its own channel's slots,
so the function is their juxtaposition, and it always returns. -/
def send_dual_delivery (env : DeliveryEnv) (u : DUser) (_summary : EnhSummary) :
    DeliveryResult :=
  ⟨(smsAttempt env u).1, (smsAttempt env u).2,
   (waAttempt env u).1, (waAttempt env u).2⟩

/-- The aggregate counters of the batch job (`dual_degraded` is the
source's `dual_partial` bucket). -/
structure DeliveryStats where
  total_users : Nat
  sms_sent : Nat
  sms_failed : Nat
  whatsapp_sent : Nat
  whatsapp_failed : Nat
  dual_success : Nat
  dual_degraded : Nat
  total_failure : Nat
deriving DecidableEq

/-- Previous calendar month of `today` (wrapping over January). -/
def prevMonthYear (today : PDate) : String :=
  if today.month = 1 then fmtYM ⟨today.year - 1, 12, 1⟩
  else fmtYM ⟨today.year, today.month - 1, 1⟩

/-- `User.query.join(Expense).filter(month_year == ym)`: does the user
own an expense in the month? -/
def userHasExpense (db : List ExpenseRow) (ym : String) (u : DUser) : Bool :=
  db.any (fun e => e.user_id = u.id && e.month_year = ym)

/-- One iteration of the batch loop, `try/except` included. -/
def batchStep (env : DeliveryEnv) (db : List ExpenseRow) (ym : String)
    (stats : DeliveryStats) (u : DUser) : DeliveryStats :=
  match env.userExn u.id with
  | some _ => { stats with total_failure := stats.total_failure + 1 }
  | none =>
    let summary := get_enhanced_monthly_summary db u.id ym
    if summary.transaction_count > 0 then
      let r := send_dual_delivery env u summary
      let s1 :=
        if r.sms_success then { stats with sms_sent := stats.sms_sent + 1 }
        else { stats with sms_failed := stats.sms_failed + 1 }
      let s2 :=
        if r.whatsapp_success then { s1 with whatsapp_sent := s1.whatsapp_sent + 1 }
        else { s1 with whatsapp_failed := s1.whatsapp_failed + 1 }
      if r.sms_success && r.whatsapp_success then
        { s2 with dual_success := s2.dual_success + 1 }
      else if r.sms_success || r.whatsapp_success then
        { s2 with dual_degraded := s2.dual_degraded + 1 }
      else { s2 with total_failure := s2.total_failure + 1 }
    else stats

/-- `monthly_tracking_service.send_monthly_summaries`: iterate the
users owning an expense in the previous month, accumulating stats; the
returned pair is the source's `{month_processed, delivery_stats}`. -/
def send_monthly_summaries (env : DeliveryEnv) (db : List ExpenseRow)
    (users : List DUser) (today : PDate) : String × DeliveryStats :=
  let ym := prevMonthYear today
  let us := users.filter (userHasExpense db ym)
  (ym, us.foldl (batchStep env db ym)
    ⟨us.length, 0, 0, 0, 0, 0, 0, 0⟩)

/-! ## Shared association-list lemmas -/

theorem alookup_cons [DecidableEq κ] (a : κ) (v : α) (rest : List (κ × α))
    (k : κ) : alookup ((a, v) :: rest) k =
      if a = k then some v else alookup rest k := rfl

theorem alookup_not_mem [DecidableEq κ] {m : List (κ × α)} {k : κ}
    (h : k ∉ m.map Prod.fst) : alookup m k = none := by
  induction m with
  | nil => rfl
  | cons p rest ih =>
    simp only [List.map_cons, List.mem_cons, not_or] at h
    obtain ⟨h1, h2⟩ := h
    cases p with
    | mk a v =>
      rw [alookup_cons, if_neg (fun hh => h1 hh.symm)]
      exact ih h2

theorem alookup_aerase_self [DecidableEq κ] {m : List (κ × α)} {k : κ}
    (h : (m.map Prod.fst).Nodup) : alookup (aerase m k) k = none := by
  induction m with
  | nil => rfl
  | cons p rest ih =>
    cases p with
    | mk a v =>
      simp only [List.map_cons, List.nodup_cons] at h
      obtain ⟨hna, hnd⟩ := h
      by_cases hak : a = k
      · subst hak
        show alookup (if a = a then rest else _) a = none
        rw [if_pos rfl]
        exact alookup_not_mem hna
      · show alookup (if a = k then rest else (a, v) :: aerase rest k) k = none
        rw [if_neg hak, alookup_cons, if_neg hak]
        exact ih hnd

theorem alookup_aset_self [DecidableEq κ] (m : List (κ × α)) (k : κ) (v : α) :
    alookup (aset m k v) k = some v := by
  induction m with
  | nil => show alookup [(k, v)] k = some v
           rw [alookup_cons, if_pos rfl]
  | cons p rest ih =>
    cases p with
    | mk a w =>
      by_cases hak : a = k
      · subst hak
        show alookup (if a = a then (a, v) :: rest else _) a = some v
        rw [if_pos rfl, alookup_cons, if_pos rfl]
      · show alookup (if a = k then _ else (a, w) :: aset rest k v) k = some v
        rw [if_neg hak, alookup_cons, if_neg hak]
        exact ih

theorem alookup_aset_ne [DecidableEq κ] (m : List (κ × α)) {k k' : κ}
    (v : α) (h : k' ≠ k) : alookup (aset m k v) k' = alookup m k' := by
  induction m with
  | nil =>
    show alookup [(k, v)] k' = alookup [] k'
    rw [alookup_cons, if_neg (fun hh => h hh.symm)]
  | cons p rest ih =>
    cases p with
    | mk a w =>
      by_cases hak : a = k
      · subst hak
        show alookup (if a = a then (a, v) :: rest else (a, w) :: aset rest a v)
          k' = _
        rw [if_pos rfl, alookup_cons, alookup_cons]
        by_cases hak' : a = k'
        · exact absurd hak'.symm h
        · rw [if_neg hak', if_neg hak']
      · show alookup (if a = k then (a, v) :: rest else (a, w) :: aset rest k v)
          k' = _
        rw [if_neg hak, alookup_cons, alookup_cons]
        by_cases hak' : a = k'
        · rw [if_pos hak', if_pos hak']
        · rw [if_neg hak', if_neg hak']
          exact ih

/-! ## Concrete fixtures used by witnesses and counterexamples -/

/-- A staged extraction record, as the validator would emit it. -/
def sampleReceipt : RawData :=
  ⟨some "Migros", some (.num (91/2)), some "2025-03-15", true, [],
   some "high", none⟩

/-- A staged manual-entry record. -/
def sampleManual : RawData :=
  ⟨some "Starbucks", some (.num 120), some "2025-07-02", true, [],
   some "manual", none⟩

/-- Configured rates (48 / 54 MWK per TL, as documented in the source). -/
def sampleRates : Rates := ⟨48, 54⟩

/-! ## C1 — conversion arithmetic and the year-month bucket at commit -/

/-- C1: for every Expense created by the rate-selection commit — for any
staged source amount and either rate category `POS`/`ATM`, staged as a
pending receipt or as a pending manual entry — the stored target amount
is `round(source * rate_for(category), 2)` and the stored `year_month`
is the transaction date formatted `YYYY-MM`. -/
theorem calc_conv_pos (rates : Rates) (q : ℚ) :
    calculate_conversion rates q "POS" =
      .ok ⟨pyRound2 q, pyRound2 (q * rates.pos_rate), rates.pos_rate, "POS"⟩ := by
  have h : pyUpper "POS" = "POS" := by decide
  simp [calculate_conversion, h]

theorem calc_conv_atm (rates : Rates) (q : ℚ) :
    calculate_conversion rates q "ATM" =
      .ok ⟨pyRound2 q, pyRound2 (q * rates.atm_rate), rates.atm_rate, "ATM"⟩ := by
  have h : pyUpper "ATM" = "ATM" := by decide
  simp [calculate_conversion, h]

theorem c1_commit_conversion_and_month_bucket
    (rates : Rates) (st : MHState) (uid : Nat) (sender : String)
    (rt : String) (data : RawData) (q : ℚ) (ds : String) (d : PDate)
    (hstaged : alookup st.pending_receipts sender = some data ∨
      (alookup st.pending_receipts sender = none ∧
       alookup st.pending_manual_entries sender = some data))
    (hq : data.total_amount = some (.num q))
    (hrt : rt = "POS" ∨ rt = "ATM")
    (hds : data.date = some ds)
    (hd : parseYMD ds = some d) :
    ∃ st' e, handle_rate_selection rates st uid sender rt = (st', .saved e) ∧
      e.amount_tl = pyRound2 q ∧
      e.amount_mwk =
        pyRound2 (q * (if rt = "POS" then rates.pos_rate else rates.atm_rate)) ∧
      e.rate_used = (if rt = "POS" then rates.pos_rate else rates.atm_rate) ∧
      e.expense_date = d ∧
      e.month_year = fmtYM e.expense_date ∧
      st'.expenses = st.expenses ++ [e] := by
  unfold handle_rate_selection
  rcases hstaged with h | ⟨h0, h⟩ <;> rcases hrt with rfl | rfl
  · simp only [h, commitStaged, hq, hds, hd, calc_conv_pos]
    exact ⟨_, _, rfl, rfl, by simp, by simp, rfl, rfl, rfl⟩
  · simp only [h, commitStaged, hq, hds, hd, calc_conv_atm]
    exact ⟨_, _, rfl, rfl, by simp, by simp, rfl, rfl, rfl⟩
  · simp only [h0, h, commitStaged, hq, hds, hd, calc_conv_pos]
    exact ⟨_, _, rfl, rfl, by simp, by simp, rfl, rfl, rfl⟩
  · simp only [h0, h, commitStaged, hq, hds, hd, calc_conv_atm]
    exact ⟨_, _, rfl, rfl, by simp, by simp, rfl, rfl, rfl⟩

/-- Closed instance of C1 at a concrete staged receipt. -/
theorem c1_commit_conversion_and_month_bucket_witness :
    ∃ st' e, handle_rate_selection sampleRates
        ⟨[("u", sampleReceipt)], [], [], []⟩ 1 "u" "POS" = (st', .saved e) ∧
      e.amount_tl = pyRound2 (91/2) ∧
      e.amount_mwk = pyRound2 ((91/2) *
        (if ("POS" : String) = "POS" then sampleRates.pos_rate
         else sampleRates.atm_rate)) ∧
      e.rate_used =
        (if ("POS" : String) = "POS" then sampleRates.pos_rate
         else sampleRates.atm_rate) ∧
      e.expense_date = ⟨2025, 3, 15⟩ ∧
      e.month_year = fmtYM e.expense_date ∧
      st'.expenses = ([] : List ExpenseRow) ++ [e] :=
  c1_commit_conversion_and_month_bucket sampleRates
    ⟨[("u", sampleReceipt)], [], [], []⟩ 1 "u" "POS" sampleReceipt
    (91/2) "2025-03-15" ⟨2025, 3, 15⟩ (Or.inl rfl) rfl
    (Or.inl rfl) rfl rfl

/-! ## C6 — rate choice with nothing staged is pure guidance -/

/-- C6: a rate choice (button `pos_rate`/`atm_rate` or typed `POS`/
`ATM`) arriving when the sender has neither a pending receipt nor a
completed manual-entry record yields the "no pending transaction"
guidance outcome and leaves the whole handler state — pending
dictionaries, manual-entry states, and the expense store — unchanged. -/
theorem c6_rate_choice_without_pending_is_pure_guidance
    (rates : Rates) (st : MHState) (uid : Nat) (sender : String)
    (h1 : alookup st.pending_receipts sender = none)
    (h2 : alookup st.pending_manual_entries sender = none) :
    (∀ rt, handle_rate_selection rates st uid sender rt = (st, .noPending)) ∧
    (∀ body today, pyStrip (pyLower body) = "pos" ∨
        pyStrip (pyLower body) = "atm" →
      handle_text_message rates st uid sender body today =
        (st, .rateSel .noPending)) ∧
    handle_interactive_message rates st uid sender "pos_rate" =
      (st, .rateSel .noPending) ∧
    handle_interactive_message rates st uid sender "atm_rate" =
      (st, .rateSel .noPending) := by
  have hrate : ∀ rt, handle_rate_selection rates st uid sender rt =
      (st, .noPending) := by
    intro rt
    simp [handle_rate_selection, h1, h2]
  refine ⟨hrate, ?_, ?_, ?_⟩
  · intro body today h
    rcases h with h | h <;>
      simp +decide [handle_text_message, h, hrate]
  · simp +decide [handle_interactive_message, hrate]
  · simp +decide [handle_interactive_message, hrate]

/-- Closed instance of C6 on the empty handler state. -/
theorem c6_rate_choice_without_pending_is_pure_guidance_witness :
    (∀ rt, handle_rate_selection sampleRates ⟨[], [], [], []⟩ 1 "u" rt =
      (⟨[], [], [], []⟩, .noPending)) ∧
    (∀ body today, pyStrip (pyLower body) = "pos" ∨
        pyStrip (pyLower body) = "atm" →
      handle_text_message sampleRates ⟨[], [], [], []⟩ 1 "u" body today =
        (⟨[], [], [], []⟩, .rateSel .noPending)) ∧
    handle_interactive_message sampleRates ⟨[], [], [], []⟩ 1 "u" "pos_rate" =
      (⟨[], [], [], []⟩, .rateSel .noPending) ∧
    handle_interactive_message sampleRates ⟨[], [], [], []⟩ 1 "u" "atm_rate" =
      (⟨[], [], [], []⟩, .rateSel .noPending) :=
  c6_rate_choice_without_pending_is_pure_guidance sampleRates
    ⟨[], [], [], []⟩ 1 "u" rfl rfl

/-! ## C10 — receipt precedence and full clearing at commit -/

/-- C10: when a sender has both a pending receipt and a pending
manual-entry record, the rate choice commits the receipt (the source
consults `pending_receipts` first), and a successful commit deletes all
three per-sender ephemeral entries. -/
theorem c10_receipt_precedence_and_full_clear
    (rates : Rates) (st : MHState) (uid : Nat) (sender : String)
    (rt : String) (r m : RawData) (q : ℚ) (ds : String) (d : PDate)
    (hr : alookup st.pending_receipts sender = some r)
    (_hm : alookup st.pending_manual_entries sender = some m)
    (hnd1 : (st.pending_receipts.map Prod.fst).Nodup)
    (hnd2 : (st.pending_manual_entries.map Prod.fst).Nodup)
    (hnd3 : (st.manual_entry_states.map Prod.fst).Nodup)
    (hq : r.total_amount = some (.num q))
    (hrt : rt = "POS" ∨ rt = "ATM")
    (hds : r.date = some ds)
    (hd : parseYMD ds = some d) :
    ∃ st' e, handle_rate_selection rates st uid sender rt = (st', .saved e) ∧
      e.merchant = r.merchant_name ∧
      e.amount_tl = pyRound2 q ∧
      e.items = r.items ∧
      e.confidence = r.confidence.getD "medium" ∧
      alookup st'.pending_receipts sender = none ∧
      alookup st'.pending_manual_entries sender = none ∧
      alookup st'.manual_entry_states sender = none := by
  unfold handle_rate_selection
  rcases hrt with rfl | rfl
  · simp only [hr, commitStaged, hq, hds, hd, calc_conv_pos]
    exact ⟨_, _, rfl, rfl, rfl, rfl, by simp, alookup_aerase_self hnd1,
      alookup_aerase_self hnd2, alookup_aerase_self hnd3⟩
  · simp only [hr, commitStaged, hq, hds, hd, calc_conv_atm]
    exact ⟨_, _, rfl, rfl, rfl, rfl, by simp, alookup_aerase_self hnd1,
      alookup_aerase_self hnd2, alookup_aerase_self hnd3⟩

/-- Closed instance of C10: both a receipt and a manual record staged. -/
theorem c10_receipt_precedence_and_full_clear_witness :
    ∃ st' e, handle_rate_selection sampleRates
        ⟨[("u", sampleReceipt)], [("u", sampleManual)],
         [("u", ⟨"merchant", false, true, some 120, none⟩)], []⟩
        1 "u" "ATM" = (st', .saved e) ∧
      e.merchant = sampleReceipt.merchant_name ∧
      e.amount_tl = pyRound2 (91/2) ∧
      e.items = sampleReceipt.items ∧
      e.confidence = sampleReceipt.confidence.getD "medium" ∧
      alookup st'.pending_receipts "u" = none ∧
      alookup st'.pending_manual_entries "u" = none ∧
      alookup st'.manual_entry_states "u" = none :=
  c10_receipt_precedence_and_full_clear sampleRates
    ⟨[("u", sampleReceipt)], [("u", sampleManual)],
     [("u", ⟨"merchant", false, true, some 120, none⟩)], []⟩
    1 "u" "ATM" sampleReceipt sampleManual (91/2) "2025-03-15" ⟨2025, 3, 15⟩
    rfl rfl (by decide) (by decide) (by decide) rfl (Or.inr rfl) rfl rfl

/-! ## C2 — overlap of pending receipt and manual-entry state -/

theorem commit_saved_inv (rates : Rates) (st : MHState) (uid : Nat)
    (sender : String) (rt : String) (data : RawData) (b : Bool)
    (st' : MHState) (e : ExpenseRow)
    (heq : commitStaged rates st uid sender rt data b = (st', .saved e)) :
    st' = ⟨aerase st.pending_receipts sender,
           aerase st.pending_manual_entries sender,
           aerase st.manual_entry_states sender,
           st.expenses ++ [e]⟩ := by
  unfold commitStaged at heq
  rcases hta : data.total_amount with _ | v
  · simp [hta] at heq
  · cases v with
    | str t => simp [hta] at heq
    | num q =>
      cases hcc : calculate_conversion rates q rt with
      | error err => simp [hta, hcc] at heq
      | ok conv =>
        rcases hdd : data.date with _ | ds
        · simp [hta, hcc, hdd] at heq
        · rcases hp : parseYMD ds with _ | dd
          · simp [hta, hcc, hdd, hp] at heq
          · simp only [hta, hcc, hdd, hp] at heq
            injection heq with h1 h2
            injection h2 with h3
            subst h3
            exact h1.symm

theorem saved_inv (rates : Rates) (st : MHState) (uid : Nat)
    (sender : String) (rt : String) (st' : MHState) (e : ExpenseRow)
    (heq : handle_rate_selection rates st uid sender rt = (st', .saved e)) :
    st' = ⟨aerase st.pending_receipts sender,
           aerase st.pending_manual_entries sender,
           aerase st.manual_entry_states sender,
           st.expenses ++ [e]⟩ := by
  unfold handle_rate_selection at heq
  rcases hpr : alookup st.pending_receipts sender with _ | r
  · rcases hpm : alookup st.pending_manual_entries sender with _ | mm
    · simp [hpr, hpm] at heq
    · rw [hpr, hpm] at heq
      exact commit_saved_inv _ _ _ _ _ _ _ _ _ heq
  · rw [hpr] at heq
    exact commit_saved_inv _ _ _ _ _ _ _ _ _ heq

/-- C2 counterexample: sending `manual` and then a successfully
processed receipt image leaves the sender with BOTH a staged pending
receipt and a live `awaiting_amount` manual-entry state — the image
handler does not discard the manual-entry state. -/
theorem c2_counterexample :
    (alookup ((process_receipt_image (start_manual_entry ⟨[], [], [], []⟩ "u")
        "u" ⟨true, "text", ""⟩ ⟨true, sampleReceipt, ""⟩).1).pending_receipts
      "u").isSome = true ∧
    alookup ((process_receipt_image (start_manual_entry ⟨[], [], [], []⟩ "u")
        "u" ⟨true, "text", ""⟩
        ⟨true, sampleReceipt, ""⟩).1).manual_entry_states "u" =
      some ⟨"amount", true, false, none, none⟩ := by
  constructor <;> rfl

/-- C2 amended: a new receipt image only stages (overwrites) the
pending receipt and never touches the manual-entry state or pending
manual entries; a new `manual` command only initializes the
manual-entry state and never touches the two pending dictionaries; the
three per-sender entries are cleared together only by a successful
rate-selection commit.  (The mutual-discard the spec describes does not
happen, so both kinds of state can be live at once.) -/
theorem c2_amended_no_discard_only_commit_clears :
    (∀ st sender ocr llm,
      ((process_receipt_image st sender ocr llm).1).manual_entry_states =
        st.manual_entry_states ∧
      ((process_receipt_image st sender ocr llm).1).pending_manual_entries =
        st.pending_manual_entries) ∧
    (∀ st sender ocr llm q, ocr.success = true → llm.success = true →
      llm.data.total_amount = some (.num q) →
      alookup ((process_receipt_image st sender ocr llm).1).pending_receipts
        sender = some llm.data) ∧
    (∀ st sender,
      (start_manual_entry st sender).pending_receipts = st.pending_receipts ∧
      (start_manual_entry st sender).pending_manual_entries =
        st.pending_manual_entries ∧
      alookup (start_manual_entry st sender).manual_entry_states sender =
        some ⟨"amount", true, false, none, none⟩) ∧
    (∀ rates st uid sender rt st' e,
      (st.pending_receipts.map Prod.fst).Nodup →
      (st.pending_manual_entries.map Prod.fst).Nodup →
      (st.manual_entry_states.map Prod.fst).Nodup →
      handle_rate_selection rates st uid sender rt = (st', .saved e) →
      alookup st'.pending_receipts sender = none ∧
      alookup st'.pending_manual_entries sender = none ∧
      alookup st'.manual_entry_states sender = none) := by
  refine ⟨?_, ?_, ?_, ?_⟩
  · intro st sender ocr llm
    cases hb : ocr.success with
    | false => simp [process_receipt_image, hb]
    | true =>
      cases hl : llm.success with
      | false => simp [process_receipt_image, hb, hl]
      | true =>
        rcases hA : llm.data.total_amount with _ | v
        · simp [process_receipt_image, hb, hl, hA]
        · cases v with
          | num q => simp [process_receipt_image, hb, hl, hA]
          | str t => simp [process_receipt_image, hb, hl, hA]
  · intro st sender ocr llm q hb hl hA
    simp only [process_receipt_image, hb, hl, hA]
    simpa using alookup_aset_self st.pending_receipts sender llm.data
  · intro st sender
    exact ⟨rfl, rfl, alookup_aset_self st.manual_entry_states sender _⟩
  · intro rates st uid sender rt st' e hnd1 hnd2 hnd3 heq
    have h := saved_inv rates st uid sender rt st' e heq
    subst h
    exact ⟨alookup_aerase_self hnd1, alookup_aerase_self hnd2,
      alookup_aerase_self hnd3⟩

/-- Closed instance of C2's amended statement (its last conjunct has
hypotheses): commit on a doubly-staged sender clears everything. -/
theorem c2_amended_no_discard_only_commit_clears_witness :
    ∃ st' e, handle_rate_selection sampleRates
        ⟨[("u", sampleReceipt)], [("u", sampleManual)],
         [("u", ⟨"merchant", false, true, some 120, none⟩)], []⟩
        1 "u" "POS" = (st', .saved e) ∧
      alookup st'.pending_receipts "u" = none ∧
      alookup st'.pending_manual_entries "u" = none ∧
      alookup st'.manual_entry_states "u" = none := by
  have happ := (c2_amended_no_discard_only_commit_clears).2.2.2 sampleRates
    ⟨[("u", sampleReceipt)], [("u", sampleManual)],
     [("u", ⟨"merchant", false, true, some 120, none⟩)], []⟩
    1 "u" "POS"
  refine ⟨_, _, rfl, ?_⟩
  exact happ _ _ (by decide) (by decide) (by decide) rfl

/-! ## C3 — routing of non-command text -/

/-- The command vocabulary tested by `handle_text_message` before the
amount / merchant / help fall-through. -/
def isCommandText (t : String) : Bool :=
  decide (t = "hi" ∨ t = "hello" ∨ t = "hey" ∨ t = "start") ||
  decide (t = "help" ∨ t = "info") ||
  decide (t = "total" ∨ t = "balance" ∨ t = "summary" ∨ t = "totals") ||
  decide (t = "manual" ∨ t = "entry" ∨ t = "add" ∨ t = "lost receipt" ∨
    t = "no receipt") ||
  decide (t = "details" ∨ t = "items" ∨ t = "breakdown" ∨ t = "list") ||
  decide (pyUpper t = "POS" ∨ pyUpper t = "ATM")

/-- A sender mid-manual-entry, awaiting the merchant name. -/
def awaitingMerchantSt : MHState :=
  ⟨[], [], [("u", ⟨"merchant", false, true, some 10, none⟩)], []⟩

/-- C3 counterexample: with a ManualEntryState that is
`awaiting_merchant`, the amount-shaped text `"5"` is NOT treated as a
merchant name — the dispatcher's amount check fires first, so the text
is consumed as a (replacement) amount and the state stays
`awaiting_merchant` with the new amount. -/
theorem c3_counterexample :
    (handle_text_message sampleRates awaitingMerchantSt 1 "u" "5"
        ⟨2025, 3, 15⟩).2 = .amount (.amountAccepted 5) ∧
    alookup ((handle_text_message sampleRates awaitingMerchantSt 1 "u" "5"
        ⟨2025, 3, 15⟩).1).manual_entry_states "u" =
      some ⟨"merchant", false, true, some 5, none⟩ := by
  norm_num +decide [handle_text_message, awaitingMerchantSt, pyLower, pyUpper,
    pyStrip, pySpaceChar, List.dropWhile, is_amount_entry, cleanAmt, pyFloat?,
    pyReplace, replaceFuel, stripPre?, parseMantissa, spanDigits, digitsToNat,
    handle_manual_amount, alookup, aset,
    show '5'.toNat = 53 from by decide, show '0'.toNat = 48 from by decide,
    show Char.toLower '5' = '5' from by decide]

/-- C3 amended: for non-command text, amount-shaped input is routed to
the amount handler whenever it is in range — regardless of the
manual-entry stage: with no ManualEntryState it yields the "send
'manual' first" guidance (not the generic help response), and with a
state in either stage it is consumed as the amount, moving the state to
`awaiting_merchant`.  Only non-amount-shaped text reaches the
merchant-name branch (when `awaiting_merchant`), and everything else
falls through to help. -/
theorem c3_amended_text_dispatch
    (rates : Rates) (st : MHState) (uid : Nat) (sender : String)
    (body : String) (today : PDate)
    (hnc : isCommandText (pyStrip (pyLower body)) = false) :
    (is_amount_entry (pyStrip (pyLower body)) = true →
      handle_text_message rates st uid sender body today =
        ((handle_manual_amount st sender (pyStrip (pyLower body))).1,
         .amount (handle_manual_amount st sender (pyStrip (pyLower body))).2) ∧
      (alookup st.manual_entry_states sender = none →
        handle_manual_amount st sender (pyStrip (pyLower body)) =
          (st, .notInManualMode)) ∧
      (∀ ms, alookup st.manual_entry_states sender = some ms →
        ∃ q, pyFloat? (cleanAmt (pyStrip (pyLower body))) = some q ∧
          handle_manual_amount st sender (pyStrip (pyLower body)) =
            (withManualStates st
              (aset st.manual_entry_states sender (bumpAmount ms q)),
             .amountAccepted q))) ∧
    (is_amount_entry (pyStrip (pyLower body)) = false →
      ((alookup st.manual_entry_states sender).any (·.awaiting_merchant) =
          true →
        handle_text_message rates st uid sender body today =
          ((handle_manual_merchant st sender (pyStrip (pyLower body))
              today).1,
           .merchant (handle_manual_merchant st sender (pyStrip (pyLower body))
              today).2)) ∧
      ((alookup st.manual_entry_states sender).any (·.awaiting_merchant) =
          false →
        handle_text_message rates st uid sender body today =
          (st, .helpMsg))) := by
  simp only [isCommandText, Bool.or_eq_false_iff, decide_eq_false_iff_not]
    at hnc
  obtain ⟨⟨⟨⟨⟨h1, h2⟩, h3⟩, h4⟩, h5⟩, h6⟩ := hnc
  constructor
  · intro hamt
    refine ⟨?_, ?_, ?_⟩
    · unfold handle_text_message
      rw [if_neg h1, if_neg h2, if_neg h3, if_neg h4, if_neg h5, if_neg h6,
        if_pos hamt]
    · intro hnone
      simp [handle_manual_amount, hnone]
    · intro ms hms
      have hA : is_amount_entry (pyStrip (pyLower body)) = true := hamt
      unfold is_amount_entry at hA
      cases hf : pyFloat? (cleanAmt (pyStrip (pyLower body))) with
      | none => rw [hf] at hA; simp at hA
      | some q =>
        refine ⟨q, rfl, ?_⟩
        simp [handle_manual_amount, hms, hf]
  · intro hnamt
    have hnamt' : ¬ (is_amount_entry (pyStrip (pyLower body)) = true) := by
      simp [hnamt]
    constructor
    · intro hwait
      unfold handle_text_message
      rw [if_neg h1, if_neg h2, if_neg h3, if_neg h4, if_neg h5, if_neg h6,
        if_neg hnamt', if_pos hwait]
    · intro hnowait
      have hnowait' : ¬ ((alookup st.manual_entry_states sender).any
          (·.awaiting_merchant) = true) := by simp [hnowait]
      unfold handle_text_message
      rw [if_neg h1, if_neg h2, if_neg h3, if_neg h4, if_neg h5, if_neg h6,
        if_neg hnamt', if_neg hnowait']

/-- Closed instance of C3's amended statement on the text `"5"` for a
sender who is awaiting a merchant name. -/
theorem c3_amended_text_dispatch_witness :
    (is_amount_entry (pyStrip (pyLower "5")) = true →
      handle_text_message sampleRates awaitingMerchantSt 1 "u" "5"
          ⟨2025, 3, 15⟩ =
        ((handle_manual_amount awaitingMerchantSt "u"
            (pyStrip (pyLower "5"))).1,
         .amount (handle_manual_amount awaitingMerchantSt "u"
            (pyStrip (pyLower "5"))).2) ∧
      (alookup awaitingMerchantSt.manual_entry_states "u" = none →
        handle_manual_amount awaitingMerchantSt "u" (pyStrip (pyLower "5")) =
          (awaitingMerchantSt, .notInManualMode)) ∧
      (∀ ms, alookup awaitingMerchantSt.manual_entry_states "u" = some ms →
        ∃ q, pyFloat? (cleanAmt (pyStrip (pyLower "5"))) = some q ∧
          handle_manual_amount awaitingMerchantSt "u" (pyStrip (pyLower "5")) =
            (withManualStates awaitingMerchantSt
              (aset awaitingMerchantSt.manual_entry_states "u"
                (bumpAmount ms q)),
             .amountAccepted q))) ∧
    (is_amount_entry (pyStrip (pyLower "5")) = false →
      ((alookup awaitingMerchantSt.manual_entry_states "u").any
          (·.awaiting_merchant) = true →
        handle_text_message sampleRates awaitingMerchantSt 1 "u" "5"
            ⟨2025, 3, 15⟩ =
          ((handle_manual_merchant awaitingMerchantSt "u"
              (pyStrip (pyLower "5")) ⟨2025, 3, 15⟩).1,
           .merchant (handle_manual_merchant awaitingMerchantSt "u"
              (pyStrip (pyLower "5")) ⟨2025, 3, 15⟩).2)) ∧
      ((alookup awaitingMerchantSt.manual_entry_states "u").any
          (·.awaiting_merchant) = false →
        handle_text_message sampleRates awaitingMerchantSt 1 "u" "5"
            ⟨2025, 3, 15⟩ = (awaitingMerchantSt, .helpMsg))) :=
  c3_amended_text_dispatch sampleRates awaitingMerchantSt 1 "u" "5"
    ⟨2025, 3, 15⟩ (by decide)

/-! ## C4 / C9 — date validation -/

theorem vAmount_fields (d0 : RawData) :
    (vAmount d0).date = d0.date ∧
    (vAmount d0).extraction_notes = d0.extraction_notes ∧
    (vAmount d0).merchant_name = d0.merchant_name := by
  unfold vAmount
  split
  · cases h : coerceAmt d0.total_amount with
    | none => exact ⟨rfl, rfl, rfl⟩
    | some q =>
      dsimp only
      split <;> exact ⟨rfl, rfl, rfl⟩
  · exact ⟨rfl, rfl, rfl⟩

theorem vItems_fields (d : RawData) :
    (vItems d).date = d.date ∧
    (vItems d).confidence = d.confidence ∧
    (vItems d).extraction_notes = d.extraction_notes ∧
    (vItems d).merchant_name = d.merchant_name := by
  unfold vItems
  split <;> exact ⟨rfl, rfl, rfl, rfl⟩

theorem vConfidence_of_medium {d : RawData}
    (h : d.confidence = some "medium") : vConfidence d = d := by
  unfold vConfidence
  rw [if_pos (Or.inr (Or.inl h))]

theorem vConfidence_fields (d : RawData) :
    (vConfidence d).date = d.date ∧
    (vConfidence d).extraction_notes = d.extraction_notes ∧
    (vConfidence d).merchant_name = d.merchant_name := by
  unfold vConfidence
  split <;> exact ⟨rfl, rfl, rfl⟩

theorem vMerchant_of_truthy {d : RawData}
    (h1 : truthyOptStr d.merchant_name = true)
    (h2 : pyStrip (d.merchant_name.getD "") ≠ "") : vMerchant d = d := by
  unfold vMerchant
  rw [if_neg]
  push_neg
  exact ⟨by simp [h1], h2⟩

theorem vMerchant_fields (d : RawData) :
    (vMerchant d).date = d.date ∧
    (vMerchant d).extraction_notes = d.extraction_notes := by
  unfold vMerchant
  split <;> exact ⟨rfl, rfl⟩

/-- The record produced by a `vDate` correction branch: new date,
confidence forced to `medium`, note appended. -/
def dateFixed (d1 : RawData) (newDate : String) (note : String) : RawData :=
  { d1 with date := some newDate, confidence := some "medium",
            extraction_notes := some ((d1.extraction_notes.getD "") ++ note) }

/-- The three `vDate` correction branches, stated on the record that
enters the date stage. -/
theorem vDate_cases (today : PDate) (fp : Bool) (d1 : RawData) (s : String)
    (hds : d1.date = some s) (hne : s ≠ "") :
    (∀ f, parseYMD s = none → fix_turkish_date s = some f →
      vDate today fp d1 = dateFixed d1 f " Date format corrected.") ∧
    (parseYMD s = none → fix_turkish_date s = none →
      vDate today fp d1 =
        dateFixed d1 (fmtYMD today) " Date unclear, used today's date.") ∧
    (∀ p, parseYMD s = some p → (timedeltaDays p today fp).natAbs > 365 →
      vDate today fp d1 =
        dateFixed d1 (fmtYMD today) " Date adjusted (seemed incorrect).") := by
  have htr : truthyOptStr d1.date = true := by simp [truthyOptStr, hds, hne]
  have hget : d1.date.getD "" = s := by rw [hds]; rfl
  refine ⟨?_, ?_, ?_⟩
  · intro f hp hf
    unfold vDate
    rw [if_pos htr, hget]
    dsimp only
    rw [hp, hf]
    rfl
  · intro hp hf
    unfold vDate
    rw [if_pos htr, hget]
    dsimp only
    rw [hp, hf]
    rfl
  · intro p hp hdiff
    unfold vDate
    rw [if_pos htr, hget]
    dsimp only
    rw [hp]
    dsimp only
    rw [if_pos hdiff]
    rfl

theorem validate_tail_fields (X : RawData)
    (hc : X.confidence = some "medium")
    (hm1 : truthyOptStr X.merchant_name = true)
    (hm2 : pyStrip (X.merchant_name.getD "") ≠ "") :
    (vMerchant (vConfidence (vItems X))).date = X.date ∧
    (vMerchant (vConfidence (vItems X))).confidence = X.confidence ∧
    (vMerchant (vConfidence (vItems X))).extraction_notes =
      X.extraction_notes := by
  have hIc : (vItems X).confidence = some "medium" := by
    rw [(vItems_fields X).2.1, hc]
  rw [vConfidence_of_medium hIc]
  have hm1' : truthyOptStr (vItems X).merchant_name = true := by
    rw [(vItems_fields X).2.2.2]; exact hm1
  have hm2' : pyStrip ((vItems X).merchant_name.getD "") ≠ "" := by
    rw [(vItems_fields X).2.2.2]; exact hm2
  rw [vMerchant_of_truthy hm1' hm2']
  exact ⟨(vItems_fields X).1, (vItems_fields X).2.1, (vItems_fields X).2.2.1⟩

/-- C4 counterexample: a record with an ABSENT date and confidence
`high` passes validation with the date silently replaced by today,
confidence left at `high` (not downgraded to at most `medium`), and no
explanatory note appended. -/
theorem c4_counterexample :
    (validate_extracted_data ⟨2026, 10, 12⟩ false
      ⟨some "M", some (.num 50), none, true, [], some "high", none⟩).date =
        some "2026-10-12" ∧
    (validate_extracted_data ⟨2026, 10, 12⟩ false
      ⟨some "M", some (.num 50), none, true, [], some "high", none⟩).confidence
        = some "high" ∧
    (validate_extracted_data ⟨2026, 10, 12⟩ false
      ⟨some "M", some (.num 50), none, true, [],
        some "high", none⟩).extraction_notes = none := by
  refine ⟨?_, ?_, ?_⟩ <;>
    norm_num [validate_extracted_data, vAmount, vDate, vItems, vConfidence,
      vMerchant, truthyAmt, coerceAmt, truthyOptStr,
      show pyStrip "M" = "M" from by decide,
      show ¬(("M" : String) = "") from by decide,
      show fmtYMD ⟨2026, 10, 12⟩ = "2026-10-12" from by decide]

/-- C4 amended: the secondary parser re-parses `DD/MM/YY(YY)`,
`DD.MM.YY(YY)` and `DD-MM-YY(YY)` day-first; a PRESENT date that is
unparsable by both parsers, or parses to more than 365 `timedelta`-days
from now, is replaced (or pattern-corrected) with confidence set to
exactly `medium` — which can also raise a prior `low` — and a note
appended; an ABSENT (or empty) date is replaced with today silently,
with no confidence change and no note. -/
theorem c4_amended_date_validation :
    (fix_turkish_date "15/03/25" = some "2025-03-15" ∧
     fix_turkish_date "05.07.24" = some "2024-07-05") ∧
    (∀ today fp d0 s f, d0.date = some s → s ≠ "" →
      truthyOptStr d0.merchant_name = true →
      pyStrip (d0.merchant_name.getD "") ≠ "" →
      parseYMD s = none → fix_turkish_date s = some f →
      (validate_extracted_data today fp d0).date = some f ∧
      (validate_extracted_data today fp d0).confidence = some "medium" ∧
      (validate_extracted_data today fp d0).extraction_notes =
        some ((d0.extraction_notes.getD "") ++ " Date format corrected.")) ∧
    (∀ today fp d0 s, d0.date = some s → s ≠ "" →
      truthyOptStr d0.merchant_name = true →
      pyStrip (d0.merchant_name.getD "") ≠ "" →
      parseYMD s = none → fix_turkish_date s = none →
      (validate_extracted_data today fp d0).date = some (fmtYMD today) ∧
      (validate_extracted_data today fp d0).confidence = some "medium" ∧
      (validate_extracted_data today fp d0).extraction_notes =
        some ((d0.extraction_notes.getD "")
          ++ " Date unclear, used today's date.")) ∧
    (∀ today fp d0 s p, d0.date = some s → s ≠ "" →
      truthyOptStr d0.merchant_name = true →
      pyStrip (d0.merchant_name.getD "") ≠ "" →
      parseYMD s = some p → (timedeltaDays p today fp).natAbs > 365 →
      (validate_extracted_data today fp d0).date = some (fmtYMD today) ∧
      (validate_extracted_data today fp d0).confidence = some "medium" ∧
      (validate_extracted_data today fp d0).extraction_notes =
        some ((d0.extraction_notes.getD "")
          ++ " Date adjusted (seemed incorrect).")) ∧
    (∀ today fp d0, d0.date = none →
      (validate_extracted_data today fp d0).date = some (fmtYMD today) ∧
      (validate_extracted_data today fp d0).extraction_notes =
        d0.extraction_notes) := by
  refine ⟨⟨by decide, by decide⟩, ?_, ?_, ?_, ?_⟩
  · intro today fp d0 s f hds hne hm1 hm2 hp hf
    obtain ⟨ha1, ha2, ha3⟩ := vAmount_fields d0
    have hds' : (vAmount d0).date = some s := by rw [ha1, hds]
    have hv := ((vDate_cases today fp (vAmount d0) s hds' hne).1 f hp hf)
    unfold validate_extracted_data
    rw [hv]
    obtain ⟨hx1, hx2, hx3⟩ := validate_tail_fields
      (dateFixed (vAmount d0) f " Date format corrected.") rfl
      (by show truthyOptStr (vAmount d0).merchant_name = true
          rw [ha3]; exact hm1)
      (by show pyStrip ((vAmount d0).merchant_name.getD "") ≠ ""
          rw [ha3]; exact hm2)
    refine ⟨by rw [hx1]; rfl, by rw [hx2]; rfl, ?_⟩
    rw [hx3]
    show some (((vAmount d0).extraction_notes.getD "") ++ _) = _
    rw [ha2]
  · intro today fp d0 s hds hne hm1 hm2 hp hf
    obtain ⟨ha1, ha2, ha3⟩ := vAmount_fields d0
    have hds' : (vAmount d0).date = some s := by rw [ha1, hds]
    have hv := ((vDate_cases today fp (vAmount d0) s hds' hne).2.1 hp hf)
    unfold validate_extracted_data
    rw [hv]
    obtain ⟨hx1, hx2, hx3⟩ := validate_tail_fields
      (dateFixed (vAmount d0) (fmtYMD today)
        " Date unclear, used today's date.") rfl
      (by show truthyOptStr (vAmount d0).merchant_name = true
          rw [ha3]; exact hm1)
      (by show pyStrip ((vAmount d0).merchant_name.getD "") ≠ ""
          rw [ha3]; exact hm2)
    refine ⟨by rw [hx1]; rfl, by rw [hx2]; rfl, ?_⟩
    rw [hx3]
    show some (((vAmount d0).extraction_notes.getD "") ++ _) = _
    rw [ha2]
  · intro today fp d0 s p hds hne hm1 hm2 hp hdiff
    obtain ⟨ha1, ha2, ha3⟩ := vAmount_fields d0
    have hds' : (vAmount d0).date = some s := by rw [ha1, hds]
    have hv := ((vDate_cases today fp (vAmount d0) s hds' hne).2.2 p hp hdiff)
    unfold validate_extracted_data
    rw [hv]
    obtain ⟨hx1, hx2, hx3⟩ := validate_tail_fields
      (dateFixed (vAmount d0) (fmtYMD today)
        " Date adjusted (seemed incorrect).") rfl
      (by show truthyOptStr (vAmount d0).merchant_name = true
          rw [ha3]; exact hm1)
      (by show pyStrip ((vAmount d0).merchant_name.getD "") ≠ ""
          rw [ha3]; exact hm2)
    refine ⟨by rw [hx1]; rfl, by rw [hx2]; rfl, ?_⟩
    rw [hx3]
    show some (((vAmount d0).extraction_notes.getD "") ++ _) = _
    rw [ha2]
  · intro today fp d0 hds
    obtain ⟨ha1, ha2, _⟩ := vAmount_fields d0
    have htr : truthyOptStr (vAmount d0).date = false := by
      simp [truthyOptStr, ha1, hds]
    have hv : vDate today fp (vAmount d0) =
        { vAmount d0 with date := some (fmtYMD today) } := by
      unfold vDate
      rw [if_neg (by simp [htr])]
    unfold validate_extracted_data
    rw [hv]
    constructor
    · rw [(vMerchant_fields _).1, (vConfidence_fields _).1,
        (vItems_fields _).1]
    · rw [(vMerchant_fields _).2, (vConfidence_fields _).2.1,
        (vItems_fields _).2.2.1]
      dsimp only
      exact ha2

/-- Closed instance of C4's amended statement: `"15/03/25"` is
re-parsed day-first to `2025-03-15` with confidence `medium` and a
note. -/
theorem c4_amended_date_validation_witness :
    (validate_extracted_data ⟨2026, 10, 12⟩ false
      ⟨some "M", some (.num 50), some "15/03/25", true, [],
        some "high", none⟩).date = some "2025-03-15" ∧
    (validate_extracted_data ⟨2026, 10, 12⟩ false
      ⟨some "M", some (.num 50), some "15/03/25", true, [],
        some "high", none⟩).confidence = some "medium" ∧
    (validate_extracted_data ⟨2026, 10, 12⟩ false
      ⟨some "M", some (.num 50), some "15/03/25", true, [],
        some "high", none⟩).extraction_notes =
      some ("" ++ " Date format corrected.") :=
  (c4_amended_date_validation).2.1 ⟨2026, 10, 12⟩ false
    ⟨some "M", some (.num 50), some "15/03/25", true, [], some "high", none⟩
    "15/03/25" "2025-03-15" rfl (by decide) (by decide) (by decide)
    (by decide) (by decide)

/-- C9: two-digit years are windowed to `2000+YY` for `YY ≤ 30` and
`1900+YY` otherwise (so `"31/12/31"` is 1931, not 2031), and a matched
triple with day outside 1..31 or month outside 1..12 is rejected, in
which case the validator falls back to today's date. -/
theorem c9_two_digit_year_window_and_range_check :
    (∀ d m y, y < 100 → 1 ≤ d → d ≤ 31 → 1 ≤ m → m ≤ 12 →
      fixTriple (d, m, y) =
        (if validPDate ⟨(if y ≤ 30 then y + 2000 else y + 1900), m, d⟩
         then some (fmtYMD ⟨(if y ≤ 30 then y + 2000 else y + 1900), m, d⟩)
         else none)) ∧
    fix_turkish_date "31/12/31" = some "1931-12-31" ∧
    (∀ s d m y, firstMatch3 s = some (d, m, y) →
      (d < 1 ∨ 31 < d ∨ m < 1 ∨ 12 < m) → fix_turkish_date s = none) ∧
    (∀ today fp d0 s, d0.date = some s → s ≠ "" →
      parseYMD s = none → fix_turkish_date s = none →
      (validate_extracted_data today fp d0).date = some (fmtYMD today)) := by
  refine ⟨?_, by decide, ?_, ?_⟩
  · intro d m y hy hd1 hd2 hm1 hm2
    unfold fixTriple
    dsimp only
    rw [if_pos hy, if_pos (by simp [hd1, hd2, hm1, hm2])]
  · intro s d m y hmatch hout
    have hs : s ≠ "" := by
      intro h
      subst h
      rw [show firstMatch3 "" = none from rfl] at hmatch
      simp at hmatch
    unfold fix_turkish_date
    rw [if_neg hs, hmatch, Option.some_bind]
    unfold fixTriple
    dsimp only
    rw [if_neg (by simp only [Bool.and_eq_true, decide_eq_true_eq]; omega)]
  · intro today fp d0 s hds hne hp hf
    obtain ⟨ha1, _, _⟩ := vAmount_fields d0
    have hds' : (vAmount d0).date = some s := by rw [ha1, hds]
    have hv := ((vDate_cases today fp (vAmount d0) s hds' hne).2.1 hp hf)
    unfold validate_extracted_data
    rw [hv, (vMerchant_fields _).1, (vConfidence_fields _).1,
      (vItems_fields _).1]
    rfl

/-- Closed instance of C9: `"25"` windows to 2025; `"32/05/24"` (day
32) is rejected. -/
theorem c9_two_digit_year_window_and_range_check_witness :
    fixTriple (15, 3, 25) =
      (if validPDate ⟨(if 25 ≤ 30 then 25 + 2000 else 25 + 1900), 3, 15⟩
       then some (fmtYMD ⟨(if 25 ≤ 30 then 25 + 2000 else 25 + 1900), 3, 15⟩)
       else none) ∧
    fix_turkish_date "32/05/24" = none :=
  ⟨(c9_two_digit_year_window_and_range_check).1 15 3 25 (by decide) (by decide)
      (by decide) (by decide) (by decide),
   (c9_two_digit_year_window_and_range_check).2.2.1 "32/05/24" 32 5 24
      (by decide) (by decide)⟩

/-! ## C5 — the zero-expense monthly summary -/

theorem pyRound2_zero : pyRound2 (0 : ℚ) = 0 := by
  norm_num [pyRound2, halfEvenRound]

/-- C5 counterexample: with zero matching expenses the summary mapping
has count 0, but the merchant and day analytics keys are ABSENT (the
source returns only the basic totals dictionary), so a caller reading
`top_merchant` or `highest_spending_day` finds no value at all rather
than a non-null sentinel. -/
theorem c5_counterexample :
    (get_enhanced_monthly_summary [] 7 "2025-07").transaction_count = 0 ∧
    (get_enhanced_monthly_summary [] 7 "2025-07").top_merchant = none ∧
    (get_enhanced_monthly_summary [] 7 "2025-07").highest_spending_day =
      none ∧
    (get_enhanced_monthly_summary [] 7 "2025-07").top_merchants = none ∧
    (get_enhanced_monthly_summary [] 7 "2025-07").rate_breakdown = none ∧
    (get_enhanced_monthly_summary [] 7 "2025-07").average_transaction =
      none := by
  exact ⟨rfl, rfl, rfl, rfl, rfl, rfl⟩

/-- C5 amended: for every user and month with zero matching expenses,
the summary has transaction count 0 and both currency totals 0.0, but
every analytics field — top merchants, top merchant, rate breakdown,
average, highest-spending day and amount, month key — is absent from
the returned mapping, so callers must guard on `transaction_count`
before reading them. -/
theorem c5_amended_zero_summary (db : List ExpenseRow) (uid : Nat)
    (ym : String) (h : filterExpenses db uid ym = []) :
    get_enhanced_monthly_summary db uid ym =
      ⟨0, 0, 0, none, none, none, none, none, none, none⟩ := by
  unfold get_enhanced_monthly_summary get_monthly_total
  rw [h]
  simp [pyRound2_zero]

/-- Closed instance of C5's amended statement. -/
theorem c5_amended_zero_summary_witness :
    get_enhanced_monthly_summary [] 7 "2025-07" =
      ⟨0, 0, 0, none, none, none, none, none, none, none⟩ :=
  c5_amended_zero_summary [] 7 "2025-07" rfl

/-! ## C7 — per-channel isolation and batch completion -/

theorem enhanced_count (db : List ExpenseRow) (uid : Nat) (ym : String) :
    (get_enhanced_monthly_summary db uid ym).transaction_count =
      (filterExpenses db uid ym).length := by
  unfold get_enhanced_monthly_summary get_monthly_total
  dsimp only
  split <;> rfl

theorem batchStep_buckets (env : DeliveryEnv) (db : List ExpenseRow)
    (ym : String) (stats : DeliveryStats) (u : DUser)
    (hu : userHasExpense db ym u = true) :
    (batchStep env db ym stats u).total_users = stats.total_users ∧
    (batchStep env db ym stats u).dual_success +
      (batchStep env db ym stats u).dual_degraded +
      (batchStep env db ym stats u).total_failure =
      stats.dual_success + stats.dual_degraded + stats.total_failure + 1 := by
  unfold batchStep
  cases hx : env.userExn u.id with
  | some e => exact ⟨rfl, rfl⟩
  | none =>
    dsimp only
    have hcount : (get_enhanced_monthly_summary db u.id ym).transaction_count
        > 0 := by
      rw [enhanced_count]
      unfold userHasExpense at hu
      rw [List.any_eq_true] at hu
      obtain ⟨x, hxmem, hxp⟩ := hu
      have hmem : x ∈ filterExpenses db u.id ym := by
        unfold filterExpenses
        rw [List.mem_filter]
        exact ⟨hxmem, hxp⟩
      exact List.length_pos.mpr (List.ne_nil_of_mem hmem)
    rw [if_pos hcount]
    cases hs : (send_dual_delivery env u
        (get_enhanced_monthly_summary db u.id ym)).sms_success <;>
      cases hw : (send_dual_delivery env u
        (get_enhanced_monthly_summary db u.id ym)).whatsapp_success <;>
      simp [hs, hw] <;> omega

theorem batch_fold (env : DeliveryEnv) (db : List ExpenseRow) (ym : String) :
    ∀ (us : List DUser) (stats : DeliveryStats),
      (∀ u ∈ us, userHasExpense db ym u = true) →
      (us.foldl (batchStep env db ym) stats).total_users =
        stats.total_users ∧
      (us.foldl (batchStep env db ym) stats).dual_success +
        (us.foldl (batchStep env db ym) stats).dual_degraded +
        (us.foldl (batchStep env db ym) stats).total_failure =
        stats.dual_success + stats.dual_degraded + stats.total_failure +
          us.length := by
  intro us
  induction us with
  | nil => intro stats _; exact ⟨rfl, rfl⟩
  | cons u rest ih =>
    intro stats hall
    have hu := hall u (List.mem_cons_self u rest)
    obtain ⟨h1, h2⟩ := batchStep_buckets env db ym stats u hu
    obtain ⟨ih1, ih2⟩ := ih (batchStep env db ym stats u)
      (fun v hv => hall v (List.mem_cons_of_mem _ hv))
    constructor
    · rw [List.foldl_cons, ih1, h1]
    · rw [List.foldl_cons, ih2, h2, List.length_cons]
      omega

/-- C7: the two delivery channels are attempted independently — the
WhatsApp outcome is unchanged under any replacement of the SMS
transport and vice versa; a transport exception is captured into that
channel's error slot with the success flag false (the function always
returns a result); and the batch job always completes with
`total_users` equal to the number of users owning an expense in the
processed month, every one of them accounted for in exactly one of the
`dual_success` / `dual_partial` / `total_failure` buckets (a per-user
exception lands in `total_failure` without aborting the batch). -/
theorem c7_dual_delivery_isolation_and_batch_totals :
    (∀ env u s f,
      (send_dual_delivery { env with smsSend := f } u s).whatsapp_success =
        (send_dual_delivery env u s).whatsapp_success ∧
      (send_dual_delivery { env with smsSend := f } u s).whatsapp_error =
        (send_dual_delivery env u s).whatsapp_error) ∧
    (∀ env u s g,
      (send_dual_delivery { env with waSend := g } u s).sms_success =
        (send_dual_delivery env u s).sms_success ∧
      (send_dual_delivery { env with waSend := g } u s).sms_error =
        (send_dual_delivery env u s).sms_error) ∧
    (∀ env u s p e, u.phone_number = some p → p ≠ "" →
      env.smsAvailable = true → env.smsSend p = .exn e →
      (send_dual_delivery env u s).sms_success = false ∧
      (send_dual_delivery env u s).sms_error = some e) ∧
    (∀ env u s e, u.whatsapp_id ≠ "" → env.waServicePresent = true →
      env.waSend u.whatsapp_id = .exn e →
      (send_dual_delivery env u s).whatsapp_success = false ∧
      (send_dual_delivery env u s).whatsapp_error = some e) ∧
    (∀ env db users today,
      (send_monthly_summaries env db users today).2.total_users =
        (users.filter (userHasExpense db (prevMonthYear today))).length ∧
      (send_monthly_summaries env db users today).2.dual_success +
        (send_monthly_summaries env db users today).2.dual_degraded +
        (send_monthly_summaries env db users today).2.total_failure =
        (send_monthly_summaries env db users today).2.total_users) := by
  refine ⟨?_, ?_, ?_, ?_, ?_⟩
  · intro env u s f; exact ⟨rfl, rfl⟩
  · intro env u s g; exact ⟨rfl, rfl⟩
  · intro env u s p e hp hpne hav hsend
    have : smsAttempt env u = (false, some e) := by
      unfold smsAttempt
      rw [if_pos (by simp [truthyOptStr, hp, hpne, hav])]
      rw [show u.phone_number.getD "" = p by rw [hp]; rfl, hsend]
    exact ⟨by simp [send_dual_delivery, this],
           by simp [send_dual_delivery, this]⟩
  · intro env u s e hwa hpres hsend
    have : waAttempt env u = (false, some e) := by
      unfold waAttempt
      rw [if_pos (by simp [hwa, hpres]), hsend]
    exact ⟨by simp [send_dual_delivery, this],
           by simp [send_dual_delivery, this]⟩
  · intro env db users today
    have hall : ∀ u ∈ users.filter (userHasExpense db (prevMonthYear today)),
        userHasExpense db (prevMonthYear today) u = true :=
      fun u hu => (List.mem_filter.mp hu).2
    obtain ⟨h1, h2⟩ := batch_fold env db (prevMonthYear today)
      (users.filter (userHasExpense db (prevMonthYear today)))
      ⟨(users.filter (userHasExpense db (prevMonthYear today))).length,
        0, 0, 0, 0, 0, 0, 0⟩ hall
    have h1' : (send_monthly_summaries env db users today).2.total_users =
        (users.filter (userHasExpense db (prevMonthYear today))).length := h1
    have h2' : (send_monthly_summaries env db users today).2.dual_success +
        (send_monthly_summaries env db users today).2.dual_degraded +
        (send_monthly_summaries env db users today).2.total_failure =
        0 + 0 + 0 +
          (users.filter (userHasExpense db (prevMonthYear today))).length := h2
    exact ⟨h1', by omega⟩

/-- A transport environment whose SMS send always raises. -/
def exnEnv : DeliveryEnv :=
  ⟨true, true, fun _ => .exn "boom", fun _ => .ok true, fun _ => none⟩

/-- A user with both channels configured. -/
def sampleUser : DUser := ⟨1, "wa1", some "+123"⟩

/-- Closed instance of C7: a raising SMS transport is captured into the
result, and an empty batch completes with zero totals. -/
theorem c7_dual_delivery_isolation_and_batch_totals_witness :
    ((send_dual_delivery exnEnv sampleUser
        ⟨0, 0, 0, none, none, none, none, none, none, none⟩).sms_success =
      false ∧
     (send_dual_delivery exnEnv sampleUser
        ⟨0, 0, 0, none, none, none, none, none, none, none⟩).sms_error =
      some "boom") ∧
    ((send_monthly_summaries exnEnv [] [] ⟨2025, 8, 15⟩).2.total_users =
      (([] : List DUser).filter
        (userHasExpense [] (prevMonthYear ⟨2025, 8, 15⟩))).length ∧
     (send_monthly_summaries exnEnv [] [] ⟨2025, 8, 15⟩).2.dual_success +
       (send_monthly_summaries exnEnv [] [] ⟨2025, 8, 15⟩).2.dual_degraded +
       (send_monthly_summaries exnEnv [] [] ⟨2025, 8, 15⟩).2.total_failure =
       (send_monthly_summaries exnEnv [] [] ⟨2025, 8, 15⟩).2.total_users) :=
  ⟨(c7_dual_delivery_isolation_and_batch_totals).2.2.1 exnEnv sampleUser
      ⟨0, 0, 0, none, none, none, none, none, none, none⟩ "+123" "boom"
      rfl (by decide) rfl rfl,
   (c7_dual_delivery_isolation_and_batch_totals).2.2.2.2 exnEnv [] []
      ⟨2025, 8, 15⟩⟩

/-! ## C8 — the highest-spending-day selection

The day→total dictionary is an insertion-ordered association list; we
relate it to the mathematical per-day sums, to the first-occurrence
order of days, and to Python `max`'s first-maximum tie behaviour. -/

/-- The aggregated amount of key `d` in a key/amount stream. -/
def pairSum (l : List (Nat × ℚ)) (d : Nat) : ℚ :=
  (l.map (fun x => if x.1 = d then x.2 else 0)).sum

/-- Day-of-month total over an expense list. -/
def daySum (es : List ExpenseRow) (d : Nat) : ℚ :=
  (es.map (fun e => if e.expense_date.day = d then e.amount_mwk else 0)).sum

/-- The value of key `d` in the dictionary (0 when absent). -/
def valAt (m : List (Nat × ℚ)) (d : Nat) : ℚ := (alookup m d).getD 0

/-- The key list produced by folding a stream into a dictionary:
existing keys stay in place, new keys are appended. -/
def keyFold : List (Nat × ℚ) → List Nat → List Nat
  | [], ks => ks
  | (k, _) :: rest, ks => keyFold rest (if k ∈ ks then ks else ks ++ [k])

/-- First-occurrence deduplication of a key stream. -/
def dedupF : List Nat → List Nat
  | [] => []
  | x :: xs => x :: dedupF (xs.filter (fun y => decide (y ≠ x)))
termination_by l => l.length
decreasing_by
  simp only [List.length_cons]
  exact Nat.lt_succ_of_le (List.length_filter_le _ _)

theorem pairSum_nil (d : Nat) : pairSum [] d = 0 := rfl

theorem pairSum_cons (k : Nat) (v : ℚ) (l : List (Nat × ℚ)) (d : Nat) :
    pairSum ((k, v) :: l) d = (if k = d then v else 0) + pairSum l d := by
  simp [pairSum]

theorem keys_aset (m : List (Nat × ℚ)) (k : Nat) (v : ℚ) :
    (aset m k v).map Prod.fst =
      if k ∈ m.map Prod.fst then m.map Prod.fst
      else m.map Prod.fst ++ [k] := by
  induction m with
  | nil => simp [aset]
  | cons p rest ih =>
    cases p with
    | mk a w =>
      by_cases hak : a = k
      · subst hak
        show ((if a = a then (a, v) :: rest else (a, w) :: aset rest a v).map
          Prod.fst) = _
        rw [if_pos rfl]
        simp
      · show ((if a = k then (a, v) :: rest else (a, w) :: aset rest k v).map
          Prod.fst) = _
        rw [if_neg hak]
        simp only [List.map_cons, ih, List.mem_cons]
        by_cases hk : k ∈ rest.map Prod.fst
        · rw [if_pos hk, if_pos (Or.inr hk)]
        · rw [if_neg hk, if_neg (by
            intro h
            rcases h with h | h
            · exact hak h.symm
            · exact hk h)]
          simp

theorem nodup_keys_aset {m : List (Nat × ℚ)} (k : Nat) (v : ℚ)
    (h : (m.map Prod.fst).Nodup) : ((aset m k v).map Prod.fst).Nodup := by
  rw [keys_aset]
  by_cases hk : k ∈ m.map Prod.fst
  · rw [if_pos hk]; exact h
  · rw [if_neg hk]
    exact List.Nodup.append h (List.nodup_singleton k)
      (fun x hx hx2 => hk ((List.mem_singleton.mp hx2) ▸ hx))

theorem assoc_eta : ∀ (m : List (Nat × ℚ)), (m.map Prod.fst).Nodup →
    (m.map Prod.fst).map (fun d => (d, valAt m d)) = m := by
  intro m
  induction m with
  | nil => intro _; rfl
  | cons p rest ih =>
    intro h
    cases p with
    | mk a w =>
      simp only [List.map_cons, List.nodup_cons] at h
      obtain ⟨hna, hnd⟩ := h
      have h1 : valAt ((a, w) :: rest) a = w := by
        unfold valAt
        rw [alookup_cons, if_pos rfl]
        rfl
      have h2 : (rest.map Prod.fst).map
          (fun d => (d, valAt ((a, w) :: rest) d)) = rest := by
        calc (rest.map Prod.fst).map (fun d => (d, valAt ((a, w) :: rest) d))
            = (rest.map Prod.fst).map (fun d => (d, valAt rest d)) :=
              List.map_congr_left (fun d hd => by
                show (d, valAt ((a, w) :: rest) d) = (d, valAt rest d)
                unfold valAt
                rw [alookup_cons, if_neg (fun hh => hna (by rw [hh]; exact hd))])
          _ = rest := ih hnd
      show (a, valAt ((a, w) :: rest) a) ::
        (rest.map Prod.fst).map (fun d => (d, valAt ((a, w) :: rest) d)) =
        (a, w) :: rest
      rw [h1, h2]

theorem buildTotals_eq : ∀ (l m : List (Nat × ℚ)),
    (m.map Prod.fst).Nodup →
    buildTotals l m =
      (keyFold l (m.map Prod.fst)).map
        (fun d => (d, valAt m d + pairSum l d)) := by
  intro l
  induction l with
  | nil =>
    intro m hm
    show m = List.map (fun d => (d, valAt m d + pairSum [] d)) (m.map Prod.fst)
    symm
    calc List.map (fun d => (d, valAt m d + pairSum [] d)) (m.map Prod.fst)
        = List.map (fun d => (d, valAt m d)) (m.map Prod.fst) :=
          List.map_congr_left (fun d _ => by rw [pairSum_nil, add_zero])
      _ = m := assoc_eta m hm
  | cons p rest ih =>
    intro m hm
    cases p with
    | mk k v =>
      have hstep : buildTotals ((k, v) :: rest) m =
          buildTotals rest (dictAdd m k v) := rfl
      have hnd' : ((dictAdd m k v).map Prod.fst).Nodup :=
        nodup_keys_aset k _ hm
      rw [hstep, ih (dictAdd m k v) hnd']
      have hkeys : (dictAdd m k v).map Prod.fst =
          if k ∈ m.map Prod.fst then m.map Prod.fst
          else m.map Prod.fst ++ [k] := keys_aset m k _
      rw [hkeys]
      have hkf : keyFold ((k, v) :: rest) (m.map Prod.fst) =
          keyFold rest (if k ∈ m.map Prod.fst then m.map Prod.fst
            else m.map Prod.fst ++ [k]) := rfl
      rw [hkf]
      apply List.map_congr_left
      intro d _
      by_cases hdk : d = k
      · subst hdk
        have h1 : valAt (dictAdd m d v) d = valAt m d + v := by
          unfold valAt dictAdd
          rw [alookup_aset_self]
          rfl
        rw [h1, pairSum_cons, if_pos rfl, add_assoc]
      · have h1 : valAt (dictAdd m k v) d = valAt m d := by
          unfold valAt dictAdd
          rw [alookup_aset_ne _ _ hdk]
        rw [h1, pairSum_cons, if_neg (fun hh => hdk hh.symm), zero_add]

theorem buildTotals_nil_eq (l : List (Nat × ℚ)) :
    buildTotals l [] = (keyFold l []).map (fun d => (d, pairSum l d)) := by
  rw [show ([] : List Nat) = (([] : List (Nat × ℚ)).map Prod.fst) from rfl,
    buildTotals_eq l [] (by simp)]
  apply List.map_congr_left
  intro d _
  show (d, valAt [] d + pairSum l d) = _
  rw [show valAt [] d = 0 from rfl, zero_add]

theorem keyFold_mem : ∀ (l : List (Nat × ℚ)) (ks : List Nat) (d : Nat),
    d ∈ keyFold l ks ↔ d ∈ ks ∨ ∃ p ∈ l, p.1 = d := by
  intro l
  induction l with
  | nil => intro ks d; simp [keyFold]
  | cons p rest ih =>
    intro ks d
    cases p with
    | mk k v =>
      show d ∈ keyFold rest (if k ∈ ks then ks else ks ++ [k]) ↔ _
      rw [ih]
      by_cases hk : k ∈ ks
      · rw [if_pos hk]
        constructor
        · rintro (h | ⟨q, hq, hqd⟩)
          · exact Or.inl h
          · exact Or.inr ⟨q, List.mem_cons_of_mem _ hq, hqd⟩
        · rintro (h | ⟨q, hq, hqd⟩)
          · exact Or.inl h
          · rcases List.mem_cons.mp hq with rfl | hq'
            · have hkd : k = d := hqd
              exact Or.inl (hkd ▸ hk)
            · exact Or.inr ⟨q, hq', hqd⟩
      · rw [if_neg hk]
        constructor
        · rintro (h | ⟨q, hq, hqd⟩)
          · rcases List.mem_append.mp h with h' | h'
            · exact Or.inl h'
            · exact Or.inr ⟨(k, v), List.mem_cons_self _ _,
                (List.mem_singleton.mp h').symm⟩
          · exact Or.inr ⟨q, List.mem_cons_of_mem _ hq, hqd⟩
        · rintro (h | ⟨q, hq, hqd⟩)
          · exact Or.inl (List.mem_append.mpr (Or.inl h))
          · rcases List.mem_cons.mp hq with rfl | hq'
            · have hkd : k = d := hqd
              exact Or.inl (List.mem_append.mpr
                (Or.inr (List.mem_singleton.mpr hkd.symm)))
            · exact Or.inr ⟨q, hq', hqd⟩

theorem dedupF_cons (x : Nat) (xs : List Nat) :
    dedupF (x :: xs) = x :: dedupF (xs.filter (fun y => decide (y ≠ x))) := by
  rw [dedupF]

theorem keyFold_eq_dedupF : ∀ (l : List (Nat × ℚ)) (ks : List Nat),
    keyFold l ks =
      ks ++ dedupF ((l.map Prod.fst).filter (fun d => decide (d ∉ ks))) := by
  intro l
  induction l with
  | nil =>
    intro ks
    show ks = ks ++ dedupF []
    rw [dedupF]
    simp
  | cons p rest ih =>
    intro ks
    cases p with
    | mk k v =>
      show keyFold rest (if k ∈ ks then ks else ks ++ [k]) = _
      rw [List.map_cons, List.filter_cons]
      by_cases hk : k ∈ ks
      · rw [if_pos hk, ih ks]
        have : (decide (k ∉ ks)) = false := by simp [hk]
        rw [this]
        simp
      · rw [if_neg hk, ih (ks ++ [k])]
        have hdk : (decide (k ∉ ks)) = true := by simp [hk]
        rw [hdk]
        simp only [if_true]
        rw [dedupF_cons, List.filter_filter]
        have hpred : ∀ d ∈ rest.map Prod.fst,
            (decide (d ∉ ks ++ [k])) =
            ((decide (d ≠ k)) && (decide (d ∉ ks))) := by
          intro d _
          by_cases h1 : d = k <;> by_cases h2 : d ∈ ks <;>
            simp [h1, h2, List.mem_append]
        rw [List.filter_congr hpred]
        rw [List.append_assoc]
        rfl

theorem dedupF_mem : ∀ (l : List Nat) (a : Nat), a ∈ dedupF l ↔ a ∈ l := by
  intro l
  induction l using dedupF.induct with
  | case1 => intro a; rw [dedupF]
  | case2 x xs ih =>
    intro a
    rw [dedupF_cons, List.mem_cons, List.mem_cons, ih]
    by_cases hax : a = x
    · simp [hax]
    · simp [hax, List.mem_filter]

theorem findIdx_map_comp {α β : Type} (f : α → β) (l : List α)
    (p : β → Bool) :
    (l.map f).findIdx p = l.findIdx (fun a => p (f a)) := by
  induction l with
  | nil => rfl
  | cons a rest ih => simp [List.findIdx_cons, ih]

theorem findIdx_filter_mono :
    ∀ (xs : List Nat) (p : Nat → Bool) (a b : Nat),
      a ∈ xs.filter p → b ∈ xs.filter p →
      (xs.filter p).findIdx (fun y => y == a) <
        (xs.filter p).findIdx (fun y => y == b) →
      xs.findIdx (fun y => y == a) < xs.findIdx (fun y => y == b) := by
  intro xs
  induction xs with
  | nil => intro p a b ha _ _; simp at ha
  | cons h t ih =>
    intro p a b ha hb hlt
    cases hph : p h with
    | false =>
      rw [List.filter_cons_of_neg (by simp [hph])] at ha hb hlt
      have hpa : p a = true := (List.mem_filter.mp ha).2
      have hpb : p b = true := (List.mem_filter.mp hb).2
      have hna : (h == a) = false := by
        simp only [beq_eq_false_iff_ne]
        intro hh
        rw [hh] at hph
        rw [hph] at hpa
        exact Bool.false_ne_true hpa
      have hnb : (h == b) = false := by
        simp only [beq_eq_false_iff_ne]
        intro hh
        rw [hh] at hph
        rw [hph] at hpb
        exact Bool.false_ne_true hpb
      rw [List.findIdx_cons, List.findIdx_cons, hna, hnb]
      simpa using ih p a b ha hb hlt
    | true =>
      rw [List.filter_cons_of_pos (by simp [hph])] at ha hb hlt
      by_cases hbh : b = h
      · subst hbh
        have hzero : (b :: t.filter p).findIdx (fun y => y == b) = 0 := by
          rw [List.findIdx_cons]
          simp
        rw [hzero] at hlt
        omega
      · have hnb : (h == b) = false := by
          simp only [beq_eq_false_iff_ne]
          exact fun hh => hbh hh.symm
        by_cases hah : a = h
        · subst hah
          rw [List.findIdx_cons, List.findIdx_cons, hnb]
          simp
        · have hna : (h == a) = false := by
            simp only [beq_eq_false_iff_ne]
            exact fun hh => hah hh.symm
          rw [List.findIdx_cons, List.findIdx_cons, hna, hnb] at hlt
          simp only [cond_false] at hlt
          have ha' : a ∈ t.filter p :=
            (List.mem_cons.mp ha).resolve_left (fun hh => hah hh)
          have hb' : b ∈ t.filter p :=
            (List.mem_cons.mp hb).resolve_left (fun hh => hbh hh)
          rw [List.findIdx_cons, List.findIdx_cons, hna, hnb]
          simp only [cond_false]
          have := ih p a b ha' hb' (by omega)
          omega

theorem dedupF_pairwise : ∀ (l : List Nat),
    List.Pairwise (fun a b => l.findIdx (fun y => y == a) <
      l.findIdx (fun y => y == b)) (dedupF l) := by
  intro l
  induction l using dedupF.induct with
  | case1 => rw [dedupF]; exact List.Pairwise.nil
  | case2 x xs ih =>
    rw [dedupF_cons]
    rw [List.pairwise_cons]
    constructor
    · intro b hb
      have hbf : b ∈ xs.filter (fun y => decide (y ≠ x)) :=
        (dedupF_mem _ b).mp hb
      have hbx : b ≠ x := by
        have := (List.mem_filter.mp hbf).2
        simpa using this
      rw [List.findIdx_cons, List.findIdx_cons]
      rw [show (x == x) = true from by simp]
      rw [show (x == b) = false from by
        simp only [beq_eq_false_iff_ne]; exact fun hh => hbx hh.symm]
      simp
    · refine List.Pairwise.imp_of_mem ?_ ih
      intro a b ha hb hlt
      have haf : a ∈ xs.filter (fun y => decide (y ≠ x)) :=
        (dedupF_mem _ a).mp ha
      have hbf : b ∈ xs.filter (fun y => decide (y ≠ x)) :=
        (dedupF_mem _ b).mp hb
      have hax : a ≠ x := by simpa using (List.mem_filter.mp haf).2
      have hbx : b ≠ x := by simpa using (List.mem_filter.mp hbf).2
      have hxs : xs.findIdx (fun y => y == a) <
          xs.findIdx (fun y => y == b) :=
        findIdx_filter_mono xs _ a b haf hbf hlt
      rw [List.findIdx_cons, List.findIdx_cons]
      rw [show (x == a) = false from by
        simp only [beq_eq_false_iff_ne]; exact fun hh => hax hh.symm]
      rw [show (x == b) = false from by
        simp only [beq_eq_false_iff_ne]; exact fun hh => hbx hh.symm]
      simp only [cond_false]
      omega

theorem pyMaxSndGo_cons (acc y : κ × ℚ) (ys : List (κ × ℚ)) :
    pyMaxSndGo acc (y :: ys) =
      pyMaxSndGo (if y.2 > acc.2 then y else acc) ys := rfl

theorem pyMaxSndGo_split :
    ∀ (xs : List (κ × ℚ)) (acc : κ × ℚ),
      ∃ l₁ l₂, acc :: xs = l₁ ++ pyMaxSndGo acc xs :: l₂ ∧
        (∀ x ∈ l₁, x.2 < (pyMaxSndGo acc xs).2) ∧
        (∀ x ∈ l₂, x.2 ≤ (pyMaxSndGo acc xs).2) := by
  intro xs
  induction xs with
  | nil =>
    intro acc
    exact ⟨[], [], rfl, by simp, by simp⟩
  | cons y ys ih =>
    intro acc
    rw [pyMaxSndGo_cons]
    by_cases hy : y.2 > acc.2
    · rw [if_pos hy]
      obtain ⟨l₁, l₂, heq, hlt, hle⟩ := ih y
      have hyr : y.2 ≤ (pyMaxSndGo y ys).2 := by
        have hmem : y ∈ l₁ ++ pyMaxSndGo y ys :: l₂ :=
          heq ▸ List.mem_cons_self y ys
        rcases List.mem_append.mp hmem with h | h
        · exact le_of_lt (hlt y h)
        · rcases List.mem_cons.mp h with h' | h'
          · exact le_of_eq (congrArg Prod.snd h')
          · exact hle y h'
      refine ⟨acc :: l₁, l₂, ?_, ?_, hle⟩
      · rw [List.cons_append, ← heq]
      · intro x hx
        rcases List.mem_cons.mp hx with rfl | hx'
        · exact lt_of_lt_of_le hy hyr
        · exact hlt x hx'
    · rw [if_neg hy]
      obtain ⟨l₁, l₂, heq, hlt, hle⟩ := ih acc
      cases l₁ with
      | nil =>
        simp only [List.nil_append] at heq
        injection heq with hacc hys
        refine ⟨[], y :: l₂, ?_, by simp, ?_⟩
        · rw [List.nil_append, ← hacc, ← hys]
        · intro x hx
          rcases List.mem_cons.mp hx with rfl | hx'
          · rw [← hacc]
            exact le_of_not_lt hy
          · exact hle x hx'
      | cons a l₁' =>
        simp only [List.cons_append] at heq
        injection heq with hacc hys
        have hacclt : acc.2 < (pyMaxSndGo acc ys).2 :=
          lt_of_eq_of_lt (congrArg Prod.snd hacc)
            (hlt a (List.mem_cons_self a l₁'))
        refine ⟨acc :: y :: l₁', l₂, ?_, ?_, hle⟩
        · rw [List.cons_append, List.cons_append, ← hys]
        · intro x hx
          rcases List.mem_cons.mp hx with rfl | hx'
          · exact hacclt
          · rcases List.mem_cons.mp hx' with rfl | hx''
            · exact lt_of_le_of_lt (le_of_not_lt hy) hacclt
            · exact hlt x (List.mem_cons_of_mem _ hx'')

theorem map_split {α β : Type} (g : α → β) :
    ∀ (kf : List α) (l₁ : List β) (x : β) (l₂ : List β),
      kf.map g = l₁ ++ x :: l₂ →
      ∃ m₁ k m₂, kf = m₁ ++ k :: m₂ ∧ g k = x ∧ m₁.map g = l₁ ∧
        m₂.map g = l₂ := by
  intro kf
  induction kf with
  | nil =>
    intro l₁ x l₂ h
    exact absurd h (by simp)
  | cons a rest ih =>
    intro l₁ x l₂ h
    cases l₁ with
    | nil =>
      simp only [List.map_cons, List.nil_append] at h
      injection h with h1 h2
      exact ⟨[], a, rest, rfl, h1, rfl, h2⟩
    | cons b l₁' =>
      simp only [List.map_cons, List.cons_append] at h
      injection h with hb hrest
      obtain ⟨m₁, k, m₂, h1, h2, h3, h4⟩ := ih l₁' x l₂ hrest
      exact ⟨a :: m₁, k, m₂, by rw [h1, List.cons_append], h2,
        by rw [List.map_cons, h3, hb], h4⟩

theorem keyFold_nil_eq_dedupF (l : List (Nat × ℚ)) :
    keyFold l [] = dedupF (l.map Prod.fst) := by
  rw [keyFold_eq_dedupF, List.nil_append]
  congr 1
  apply List.filter_eq_self.mpr
  intro a _
  simp

theorem daySum_eq_pairSum (es : List ExpenseRow) (d : Nat) :
    daySum es d =
      pairSum (es.map (fun e => (e.expense_date.day, e.amount_mwk))) d := by
  unfold daySum pairSum
  rw [List.map_map]
  rfl

theorem findIdx_day (es : List ExpenseRow) (d : Nat) :
    (((es.map (fun e => (e.expense_date.day, e.amount_mwk))).map
        Prod.fst).findIdx (fun y => y == d)) =
      es.findIdx (fun x => x.expense_date.day == d) := by
  rw [List.map_map, findIdx_map_comp]
  rfl

theorem pyMax_keyFold_spec (ps : List (Nat × ℚ)) (hne : ps ≠ []) :
    ∃ d,
      (pyMaxSnd (buildTotals ps [])).getD (0, 0) = (d, pairSum ps d) ∧
      (∃ p ∈ ps, p.1 = d) ∧
      (∀ p ∈ ps, pairSum ps p.1 ≤ pairSum ps d) ∧
      (∀ p ∈ ps, pairSum ps p.1 = pairSum ps d →
        (ps.map Prod.fst).findIdx (fun y => y == d) ≤
          (ps.map Prod.fst).findIdx (fun y => y == p.1)) := by
  obtain ⟨p₀, hp₀⟩ := List.exists_mem_of_ne_nil ps hne
  have hmem0 : p₀.1 ∈ keyFold ps [] :=
    (keyFold_mem ps [] _).mpr (Or.inr ⟨p₀, hp₀, rfl⟩)
  obtain ⟨k₀, kt, hkfe⟩ : ∃ k₀ kt, keyFold ps [] = k₀ :: kt := by
    cases h : keyFold ps [] with
    | nil => rw [h] at hmem0; exact absurd hmem0 (List.not_mem_nil _)
    | cons a b => exact ⟨a, b, rfl⟩
  have hbt : buildTotals ps [] =
      (keyFold ps []).map (fun d => (d, pairSum ps d)) := buildTotals_nil_eq ps
  obtain ⟨l₁, l₂, heq, hlt, hle⟩ :=
    pyMaxSndGo_split (kt.map (fun d => (d, pairSum ps d)))
      (k₀, pairSum ps k₀)
  have hmapeq : (k₀ :: kt).map (fun d => (d, pairSum ps d)) =
      l₁ ++ pyMaxSndGo (k₀, pairSum ps k₀)
        (kt.map (fun d => (d, pairSum ps d))) :: l₂ := by
    rw [List.map_cons]; exact heq
  obtain ⟨m₁, k, m₂, hsp, hgk, hm₁, hm₂⟩ :=
    map_split (fun d => (d, pairSum ps d)) (k₀ :: kt) _ _ _ hmapeq
  have hr2 : (pyMaxSndGo (k₀, pairSum ps k₀)
      (kt.map (fun d => (d, pairSum ps d)))).2 = pairSum ps k :=
    (congrArg Prod.snd hgk).symm
  refine ⟨k, ?_, ?_, ?_, ?_⟩
  · rw [hbt, hkfe, List.map_cons]
    exact hgk.symm
  · have hkm : k ∈ k₀ :: kt := by
      rw [hsp]
      exact List.mem_append.mpr (Or.inr (List.mem_cons_self _ _))
    rw [← hkfe] at hkm
    rcases (keyFold_mem ps [] k).mp hkm with h | h
    · exact absurd h (List.not_mem_nil _)
    · exact h
  · intro p hp
    have hdm : p.1 ∈ k₀ :: kt := by
      rw [← hkfe]
      exact (keyFold_mem ps [] _).mpr (Or.inr ⟨p, hp, rfl⟩)
    have hfm : (p.1, pairSum ps p.1) ∈
        l₁ ++ pyMaxSndGo (k₀, pairSum ps k₀)
          (kt.map (fun d => (d, pairSum ps d))) :: l₂ := by
      rw [← hmapeq]
      exact List.mem_map.mpr ⟨p.1, hdm, rfl⟩
    rcases List.mem_append.mp hfm with h1 | h2
    · have h := hlt _ h1
      have h' : pairSum ps p.1 < pairSum ps k := by rw [← hr2]; exact h
      exact le_of_lt h'
    · rcases List.mem_cons.mp h2 with h3 | h4
      · have h := congrArg Prod.snd h3
        have h' : pairSum ps p.1 = pairSum ps k := by rw [← hr2]; exact h
        exact le_of_eq h'
      · have h := hle _ h4
        have h' : pairSum ps p.1 ≤ pairSum ps k := by rw [← hr2]; exact h
        exact h'
  · intro p hp hts
    by_cases hpk : p.1 = k
    · rw [hpk]
    · have hdm : p.1 ∈ m₁ ++ k :: m₂ := by
        rw [← hsp, ← hkfe]
        exact (keyFold_mem ps [] _).mpr (Or.inr ⟨p, hp, rfl⟩)
      have hnm1 : p.1 ∉ m₁ := by
        intro hmem
        have hfm1 : (p.1, pairSum ps p.1) ∈ l₁ := by
          rw [← hm₁]
          exact List.mem_map.mpr ⟨p.1, hmem, rfl⟩
        have h := hlt _ hfm1
        have h' : pairSum ps p.1 < pairSum ps k := by rw [← hr2]; exact h
        rw [hts] at h'
        exact lt_irrefl _ h'
      have hmem2 : p.1 ∈ m₂ := by
        rcases List.mem_append.mp hdm with h | h
        · exact absurd h hnm1
        · rcases List.mem_cons.mp h with h' | h'
          · exact absurd h' hpk
          · exact h'
      have hpw : List.Pairwise (fun a b =>
          (ps.map Prod.fst).findIdx (fun y => y == a) <
            (ps.map Prod.fst).findIdx (fun y => y == b)) (k₀ :: kt) := by
        rw [← hkfe, keyFold_nil_eq_dedupF]
        exact dedupF_pairwise (ps.map Prod.fst)
      rw [hsp] at hpw
      have hpw2 := (List.pairwise_append.mp hpw).2.1
      exact le_of_lt ((List.pairwise_cons.mp hpw2).1 _ hmem2)

theorem highest_day_spec (es : List ExpenseRow) (hne : es ≠ []) :
    ∃ d,
      (pyMaxSnd (buildTotals
          (es.map (fun e => (e.expense_date.day, e.amount_mwk))) [])).getD
          (0, 0) = (d, daySum es d) ∧
      (∃ e ∈ es, e.expense_date.day = d) ∧
      (∀ e ∈ es, daySum es e.expense_date.day ≤ daySum es d) ∧
      (∀ e ∈ es, daySum es e.expense_date.day = daySum es d →
        es.findIdx (fun x => x.expense_date.day == d) ≤
          es.findIdx (fun x => x.expense_date.day == e.expense_date.day)) := by
  have hpne : es.map (fun e => (e.expense_date.day, e.amount_mwk)) ≠ [] := by
    intro h
    exact hne (List.map_eq_nil_iff.mp h)
  obtain ⟨d, hgd, hocc, hmax, htie⟩ :=
    pyMax_keyFold_spec (es.map (fun e => (e.expense_date.day, e.amount_mwk)))
      hpne
  refine ⟨d, ?_, ?_, ?_, ?_⟩
  · rw [hgd, daySum_eq_pairSum]
  · obtain ⟨p, hp, hp1⟩ := hocc
    obtain ⟨e, he, hge⟩ := List.mem_map.mp hp
    refine ⟨e, he, ?_⟩
    rw [← hp1, ← hge]
  · intro e he
    have h := hmax _ (List.mem_map.mpr ⟨e, he, rfl⟩)
    rw [daySum_eq_pairSum, daySum_eq_pairSum]
    exact h
  · intro e he hts
    rw [daySum_eq_pairSum, daySum_eq_pairSum] at hts
    have h := htie _ (List.mem_map.mpr ⟨e, he, rfl⟩) hts
    rw [← findIdx_day es d, ← findIdx_day es e.expense_date.day]
    exact h

/-- **C8 (amended).** For every user and month with a non-empty filtered
expense set, `highest_spending_day` is a day of month that occurs in the
set, its aggregated MWK total is maximal among all occurring days, and
`highest_spending_amount` is that total rounded to 2 places.  When several
days tie for the maximal total, the day whose FIRST expense appears
earliest in the expense list wins (Python's `max` keeps the first maximum
over dict insertion order) — not the smallest day number as claimed. -/
theorem c8_amended_highest_day (db : List ExpenseRow) (uid : Nat)
    (ym : String) (hne : filterExpenses db uid ym ≠ []) :
    ∃ d,
      (get_enhanced_monthly_summary db uid ym).highest_spending_day =
        some d ∧
      (get_enhanced_monthly_summary db uid ym).highest_spending_amount =
        some (pyRound2 (daySum (filterExpenses db uid ym) d)) ∧
      (∃ e ∈ filterExpenses db uid ym, e.expense_date.day = d) ∧
      (∀ e ∈ filterExpenses db uid ym,
        daySum (filterExpenses db uid ym) e.expense_date.day ≤
          daySum (filterExpenses db uid ym) d) ∧
      (∀ e ∈ filterExpenses db uid ym,
        daySum (filterExpenses db uid ym) e.expense_date.day =
          daySum (filterExpenses db uid ym) d →
        (filterExpenses db uid ym).findIdx
            (fun x => x.expense_date.day == d) ≤
          (filterExpenses db uid ym).findIdx
            (fun x => x.expense_date.day == e.expense_date.day)) := by
  have hnotemp : ¬((filterExpenses db uid ym).isEmpty = true) := by
    rw [List.isEmpty_iff]
    exact hne
  obtain ⟨d, hgd, hocc, hmax, htie⟩ :=
    highest_day_spec (filterExpenses db uid ym) hne
  refine ⟨d, ?_, ?_, hocc, hmax, htie⟩
  · unfold get_enhanced_monthly_summary
    dsimp only
    rw [if_neg hnotemp, hgd]
  · unfold get_enhanced_monthly_summary
    dsimp only
    rw [if_neg hnotemp, hgd]

/-- Tie fixture: 100 MWK spent on 2025-07-20, committed first. -/
def tieA : ExpenseRow :=
  ⟨1, some "A", 10, 100, "POS", 48, ⟨2025, 7, 20⟩, "2025-07", [], "high"⟩

/-- Tie fixture: 100 MWK spent on 2025-07-05, committed second. -/
def tieB : ExpenseRow :=
  ⟨1, some "B", 10, 100, "ATM", 54, ⟨2025, 7, 5⟩, "2025-07", [], "high"⟩

/-- **C8 counterexample.** Days 5 and 20 tie at 100 MWK each, day 5 is the
smaller day number, yet the summary selects day 20 because its expense was
encountered first: the claimed smallest-day tie-break does not hold. -/
theorem c8_counterexample :
    daySum [tieA, tieB] 5 = daySum [tieA, tieB] 20 ∧
    (5 : Nat) < 20 ∧
    (get_enhanced_monthly_summary [tieA, tieB] 1
        "2025-07").highest_spending_day = some 20 := by
  refine ⟨?_, by norm_num, ?_⟩
  · norm_num [daySum, tieA, tieB]
  · norm_num +decide [get_enhanced_monthly_summary, get_monthly_total,
      filterExpenses, tieA, tieB, buildTotals, dictAdd, aset, alookup,
      pyMaxSnd, pyMaxSndGo, merchKey, sortDescSnd, insDesc]

/-- Closed instance of C8's amended statement on the tie fixtures. -/
theorem c8_amended_highest_day_witness :
    filterExpenses [tieA, tieB] 1 "2025-07" ≠ [] ∧
    ∃ d,
      (get_enhanced_monthly_summary [tieA, tieB] 1
          "2025-07").highest_spending_day = some d ∧
      (get_enhanced_monthly_summary [tieA, tieB] 1
          "2025-07").highest_spending_amount =
        some (pyRound2 (daySum (filterExpenses [tieA, tieB] 1 "2025-07") d)) ∧
      (∃ e ∈ filterExpenses [tieA, tieB] 1 "2025-07",
        e.expense_date.day = d) ∧
      (∀ e ∈ filterExpenses [tieA, tieB] 1 "2025-07",
        daySum (filterExpenses [tieA, tieB] 1 "2025-07")
            e.expense_date.day ≤
          daySum (filterExpenses [tieA, tieB] 1 "2025-07") d) ∧
      (∀ e ∈ filterExpenses [tieA, tieB] 1 "2025-07",
        daySum (filterExpenses [tieA, tieB] 1 "2025-07")
            e.expense_date.day =
          daySum (filterExpenses [tieA, tieB] 1 "2025-07") d →
        (filterExpenses [tieA, tieB] 1 "2025-07").findIdx
            (fun x => x.expense_date.day == d) ≤
          (filterExpenses [tieA, tieB] 1 "2025-07").findIdx
            (fun x => x.expense_date.day == e.expense_date.day)) :=
  ⟨by decide, c8_amended_highest_day [tieA, tieB] 1 "2025-07" (by decide)⟩

end ExpenseTracker
